import Mathlib

/-!
# The GraphQL lexical scanner of graphql-go

A shallow embedding of `internal/language` (`token.go`, `lexer.go`, `parser.go`)
and of `errors/syntax.go`, followed by theorems about the scanner.

Conventions of the embedding.

* A Go `rune` is a natural number, its code point.  The input of a scanner is
  the list of runes that `bufio.Reader.ReadRune` decodes from the byte stream,
  in order.  A Go `string` that the scanner builds rune by rune
  (`bytes.Buffer.WriteRune`) is the list of the runes written.
* `bufio.Reader` is outside the repository.  It is modelled by the two facts
  the scanner relies on: `ReadRune` delivers the next rune or fails at the end
  of the input, and `UnreadRune` puts back the rune of the most recent
  `ReadRune` only when no other reader operation has happened since, so that a
  second `UnreadRune` in a row, or one after a failed `ReadRune`, changes
  nothing (its error is dropped by `Scanner.unread`).
* The messages of some errors quote a rune with the verb `%q` of Go's fmt
  package, which asks `strconv.IsPrint` whether the rune is printable.  For the
  runes above U+00FF that function reads tables outside the repository: they
  are the parameter `table` of `errors.fmtQ` and of every function that can
  build such a message.  The theorems hold for every table.
* A Go function returning `(Token, error)` on a `*Scanner` receiver returns
  here the pair together with the scanner state it leaves behind.
* A `for` loop whose every iteration starts with `s.read()` is a recursive
  function on the input not yet read: the empty list is the failed read (the
  rune `eof`), `r :: rs` is the read of `r` that leaves `rs`.
-/

namespace errors

/-- The `Position` of errors/syntax.go. -/
structure Position where
  Line : Int := 0
  Column : Int := 0
deriving DecidableEq, Repr

/-- The `Syntax` error of errors/syntax.go. -/
structure Syntax where
  Message : String
  Position : Position := {}
deriving DecidableEq, Repr

/-- A lower-case hexadecimal digit (`lowerhex` of strconv). -/
def lowerhex (k : Nat) : Char :=
  if k < 10 then Char.ofNat (48 + k) else Char.ofNat (87 + k)

/-- The number `n` written with `w` lower-case hexadecimal digits. -/
def hex (w n : Nat) : String :=
  String.mk ((List.range w).reverse.map fun i => lowerhex (n / 16 ^ i % 16))

/-- `utf8.ValidRune`: a code point up to U+10FFFF that is no surrogate. -/
def ValidRune (r : Nat) : Bool :=
  r < 0xD800 || (0xDFFF < r && r ≤ 0x10FFFF)

/-- `strconv.IsPrint`.  For the runes up to U+00FF Go decides in the code: the
printable ones are U+0020 to U+007E and U+00A1 to U+00FF without the soft hyphen
U+00AD.  For the runes above U+00FF Go looks into the tables of the strconv
package, which are outside the repository: they are the parameter `table`. -/
def IsPrint (table : Nat → Bool) (r : Nat) : Bool :=
  if r ≤ 0xFF then (0x20 ≤ r && r ≤ 0x7E) || (0xA1 ≤ r && r ≤ 0xFF && r ≠ 0xAD)
  else table r

/-- The verb `%q` of Go's fmt package applied to a rune (`strconv.QuoteRune`):
between single quotes, an invalid rune taken as U+FFFD, the single quote and the
backslash behind a backslash, a printable rune as it is, and any other rune by
its escape: a letter for U+0007 to U+000D, `\x` and two digits below U+0020 and
for U+007F, `\u` and four digits below U+10000, `\U` and eight digits from there
on. -/
def fmtQ (table : Nat → Bool) (r : Nat) : String :=
  let r := if ValidRune r then r else 0xFFFD
  let body : String :=
    if r = 39 ∨ r = 92 then "\\" ++ String.singleton (Char.ofNat r)
    else if IsPrint table r then String.singleton (Char.ofNat r)
    else if r = 7 then "\\a"
    else if r = 8 then "\\b"
    else if r = 12 then "\\f"
    else if r = 10 then "\\n"
    else if r = 13 then "\\r"
    else if r = 9 then "\\t"
    else if r = 11 then "\\v"
    else if r < 32 ∨ r = 127 then "\\x" ++ hex 2 r
    else if r < 0x10000 then "\\u" ++ hex 4 r
    else "\\U" ++ hex 8 r
  "'" ++ body ++ "'"

/-- The verb `%c` of Go's fmt package: the rune itself, an invalid rune taken as
U+FFFD. -/
def fmtC (r : Nat) : String :=
  String.singleton (Char.ofNat (if ValidRune r then r else 0xFFFD))

/-- `InvalidCharacter` of errors/syntax.go. -/
def InvalidCharacter (table : Nat → Bool) (r : Nat) : Syntax :=
  { Message := "syntax error: cannot contain the invalid character " ++ fmtQ table r }

/-- `InvalidEscapeSequence` of errors/syntax.go. -/
def InvalidEscapeSequence (r : Nat) : Syntax :=
  { Message := "syntax error: invalid character escape sequence: \\" ++ fmtC r }

/-- `InvalidNumber` of errors/syntax.go. -/
def InvalidNumber (table : Nat → Bool) (r : Nat) (msg : String) : Syntax :=
  { Message := "invalid number: " ++ msg ++ ": " ++ fmtQ table r }

/-- `UnexpectedCharacter` of errors/syntax.go. -/
def UnexpectedCharacter (table : Nat → Bool) (r : Nat) : Syntax :=
  let msg : String :=
    if r = 39 then
      "unexpected single quote character ('), did you mean to use a double quote (\")?"
    else
      "cannot parse the unexpected character " ++ fmtQ table r
  { Message := "syntax error: " ++ msg }

end errors

namespace language

/-- A Go `error` value as the scanner returns it: a `Syntax` value of
errors/syntax.go, or an error built by `errors.Errorf` / `errors.New`, functions
of the errors package declared outside the given sources, of which the formatted
message is kept. -/
inductive Error where
  | Syntax (e : errors.Syntax)
  | Errorf (Message : String)
deriving DecidableEq, Repr

/-- The `TokenKind` enumeration of token.go, in the order of its `iota`. -/
inductive TokenKind where
  | ILLEGAL | SOF | EOF | WHITE_SPACE | BANG | DOLLAR | AMP | PAREN_L | PAREN_R
  | SPREAD | COLON | EQUALS | NEGATIVE | POSITIVE | AT | BRACKET_L | BRACKET_R
  | BRACE_L | BRACE_R | PIPE | NAME | INT | FLOAT | STRING | BLOCK_STRING | COMMENT
deriving DecidableEq, Repr

open TokenKind

/-- The `Token` of token.go; the defaults are Go's zero values, so that `{}` is
`Token{}`, whose kind is `ILLEGAL`. -/
structure Token where
  Kind : TokenKind := ILLEGAL
  Start : Int := 0
  End : Int := 0
  Line : Int := 0
  Column : Int := 0
  Value : List Nat := []
deriving DecidableEq, Repr

/-- The runes of a string constant. -/
def runes (s : String) : List Nat := s.toList.map Char.toNat

/-! ## Character classes (token.go) -/

def isSourceCharacter (r : Nat) : Bool :=
  (0x0020 ≤ r && r ≤ 0xFFFF) || r = 0x0009 || r = 0x000A || r = 0x000D

/-- Membership in `whiteSpaceSet`: tab, space, comma. -/
def isWhiteSpace (r : Nat) : Bool :=
  r = 9 || r = 32 || r = 44

def isLineTerminator (r : Nat) : Bool :=
  r = 10 || r = 13

def isDigit (r : Nat) : Bool :=
  48 ≤ r && r ≤ 57

def isLetter (r : Nat) : Bool :=
  (97 ≤ r && r ≤ 122) || (65 ≤ r && r ≤ 90)

def isFirstNameCharacter (r : Nat) : Bool :=
  isLetter r || r = 95

def isNameCharacter (r : Nat) : Bool :=
  isLetter r || isDigit r || r = 95

def isFirstNumberCharacter (r : Nat) : Bool :=
  r = 45 || isDigit r

def isNonZeroDigit (r : Nat) : Bool :=
  r ≠ 48 && isDigit r

/-! ## The reader -/

/-- The state of the `bufio.Reader` a scanner owns: the runes not yet read, and
the rune that `UnreadRune` would put back (`none` when the last operation was not
a successful `ReadRune`). -/
structure Reader where
  input : List Nat
  lastRune : Option Nat := none
deriving DecidableEq, Repr

/-- `bufio.Reader.ReadRune`: `none` is the error at the end of the input. -/
def Reader.ReadRune (b : Reader) : Option Nat × Reader :=
  match b.input with
  | [] => (none, { input := [], lastRune := none })
  | r :: rs => (some r, { input := rs, lastRune := some r })

/-- `bufio.Reader.UnreadRune`; when there is no rune to put back it fails and
leaves the reader as it is. -/
def Reader.UnreadRune (b : Reader) : Reader :=
  match b.lastRune with
  | none => b
  | some r => { input := r :: b.input, lastRune := none }

/-- The `Scanner` of lexer.go. -/
structure Scanner where
  rd : Reader
deriving DecidableEq, Repr

/-- `NewScanner` on a reader that delivers the runes `input`. -/
def NewScanner (input : List Nat) : Scanner := { rd := { input := input } }

/-- The rune `eof` of lexer.go, `rune(0)`. -/
def eof : Nat := 0

namespace Scanner

/-- `Scanner.read`: the next rune, or `eof` when `ReadRune` fails. -/
def read (s : Scanner) : Nat × Scanner :=
  match s.rd.ReadRune with
  | (none, b) => (eof, { rd := b })
  | (some r, b) => (r, { rd := b })

/-- `Scanner.unread`. -/
def unread (s : Scanner) : Scanner := { rd := s.rd.UnreadRune }

/-- `Scanner.peek`. -/
def peek (s : Scanner) : Nat × Scanner :=
  let (r, s1) := s.read
  (r, s1.unread)

/-- `Scanner.isBlockString`. -/
def isBlockString (s : Scanner) : Bool × Scanner :=
  let (r1, s1) := s.read
  if r1 ≠ 34 then (false, s1.unread)
  else
    let (r2, s2) := s1.read
    if r2 ≠ 34 then (false, s2.unread.unread)
    else (true, s2)

end Scanner

/-- The scanner reached after the failed read or the read of `r` that a loop
iteration starts with. -/
abbrev afterRead (r : Nat) (rs : List Nat) : Scanner :=
  { rd := { input := rs, lastRune := some r } }

/-- The scanner after a failed read at the end of the input. -/
abbrev atEnd : Scanner := { rd := { input := [], lastRune := none } }

/-- `illegalToken` of lexer.go. -/
def illegalToken (val : List Nat) : Token := { Kind := ILLEGAL, Value := val }

/-- The loop of `scanWhiteSpace` on the input not yet read; `buf` is the buffer
so far. -/
def whiteSpaceLoop : List Nat → List Nat → List Nat × Scanner
  | [], buf => (buf, atEnd)
  | r :: rs, buf =>
    if r = eof then (buf, afterRead r rs)
    else if !isWhiteSpace r then (buf, (afterRead r rs).unread)
    else whiteSpaceLoop rs (buf ++ [r])

/-- `Scanner.scanWhiteSpace`. -/
def Scanner.scanWhiteSpace (s : Scanner) : (Token × Option Error) × Scanner :=
  let (r, s1) := s.read
  let (buf, s2) := whiteSpaceLoop s1.rd.input [r]
  (({ Kind := WHITE_SPACE, Value := buf }, none), s2)

/-- The loop of `scanComment`. -/
def commentLoop : List Nat → List Nat → List Nat × Scanner
  | [], buf => (buf, atEnd)
  | r :: rs, buf =>
    if r = eof then (buf, afterRead r rs)
    else if r ≠ 0x0009 ∧ r < 0x0020 then (buf, afterRead r rs)
    else commentLoop rs (buf ++ [r])

/-- `Scanner.scanComment`. -/
def Scanner.scanComment (s : Scanner) : (Token × Option Error) × Scanner :=
  let (p, s1) := s.peek
  let s2 := if p = 35 then s1.read.2 else s1
  match s2.scanWhiteSpace with
  | ((tok, some err), s3) => ((tok, some err), s3)
  | ((_, none), s3) =>
    let (buf, s4) := commentLoop s3.rd.input []
    (({ Kind := COMMENT, Value := buf }, none), s4)

/-- The loop of `scanName`. -/
def nameLoop : List Nat → List Nat → List Nat × Scanner
  | [], buf => (buf, atEnd)
  | r :: rs, buf =>
    if r = eof then (buf, afterRead r rs)
    else if !isNameCharacter r then (buf, (afterRead r rs).unread)
    else nameLoop rs (buf ++ [r])

/-- `Scanner.scanName`.  The `switch value` on the keywords has only empty cases.
Here and below `table` is the table of printable runes that the messages of the
errors need (see `errors.IsPrint`). -/
def Scanner.scanName (table : Nat → Bool) (s : Scanner) : (Token × Option Error) × Scanner :=
  let (r, s1) := s.read
  if !isLetter r then
    ((illegalToken [r], some (.Syntax (errors.InvalidCharacter table r))), s1)
  else
    let (value, s2) := nameLoop s1.rd.input [r]
    (({ Kind := NAME, Value := value }, none), s2)

/-- The loops `for r := s.read(); isDigit(r); r = s.read()` of `scanNumber`,
up to the read of the first rune that is not a digit. -/
def digitLoop : List Nat → List Nat → List Nat × Scanner
  | [], buf => (buf, atEnd)
  | r :: rs, buf =>
    if isDigit r then digitLoop rs (buf ++ [r])
    else (buf, afterRead r rs)

/-- The part of `scanNumber` after the leading-zero check: the remaining digits
of the integer part, the fractional part and the exponent part. -/
def Scanner.scanNumberTail (s : Scanner) (buf : List Nat) : (Token × Option Error) × Scanner :=
  let kind : TokenKind := INT
  let (buf, s) := digitLoop s.rd.input buf
  let s := s.unread
  let (p, s) := s.peek
  let (kind, buf, s) :=
    if p = 46 then
      let (r, s) := s.read
      let (buf, s) := digitLoop s.rd.input (buf ++ [r])
      (FLOAT, buf, s.unread)
    else (kind, buf, s)
  let (p, s) := s.peek
  let (buf, s) :=
    if p = 101 ∨ p = 69 then
      let (r, s) := s.read
      let buf := buf ++ [r]
      let (next, s) := s.peek
      let (buf, s) :=
        if next = 45 ∨ next = 43 then (buf ++ [s.read.1], s.read.2) else (buf, s)
      let (buf, s) := digitLoop s.rd.input buf
      (buf, s.unread)
    else (buf, s)
  (({ Kind := kind, Value := buf }, none), s)

/-- `Scanner.scanNumber`. -/
def Scanner.scanNumber (table : Nat → Bool) (s : Scanner) : (Token × Option Error) × Scanner :=
  let buf : List Nat := []
  let (p, s) := s.peek
  let (buf, s) := if p = 45 then (buf ++ [s.read.1], s.read.2) else (buf, s)
  let (p, s) := s.peek
  if p = 48 then
    let (r, s) := s.read
    let buf := buf ++ [r]
    let (d, s) := s.peek
    if isDigit d then
      let (d, s) := s.peek
      (({}, some (.Syntax (errors.InvalidNumber table d "unexpected digit after 0"))), s)
    else s.scanNumberTail buf
  else s.scanNumberTail buf

/-- `Scanner.scanBlockString`. -/
def Scanner.scanBlockString (s : Scanner) : (Token × Option Error) × Scanner :=
  (({ Kind := BLOCK_STRING }, some (.Errorf "scanBlockString: not yet implemented")), s)

/-- The `switch next` of `scanString`: the value of `escaped` after it, `none`
for the `default` case, which returns an error.  The case `u` is empty and
leaves `escaped` at its zero value. -/
def escapedRune (next : Nat) : Option Nat :=
  if next = 34 ∨ next = 92 ∨ next = 47 then some next
  else if next = 98 then some 8
  else if next = 102 then some 12
  else if next = 110 then some 10
  else if next = 114 then some 13
  else if next = 116 then some 9
  else if next = 117 then some 0
  else none

/-- The loop of `scanString`, entered after the opening quote. -/
def stringLoop : List Nat → List Nat → (Token × Option Error) × Scanner
  | [], _ => (({}, some (.Errorf "unexpected EOF")), atEnd)
  | r :: rs, buf =>
    if r = 34 then (({ Kind := STRING, Value := buf }, none), afterRead r rs)
    else if r = eof then (({}, some (.Errorf "unexpected EOF")), afterRead r rs)
    else if isLineTerminator r then
      (({}, some (.Errorf "unexpected line terminator")), afterRead r rs)
    else if r = 92 then
      match rs with
      | [] => (({}, some (.Syntax (errors.InvalidEscapeSequence r))), atEnd)
      | next :: rs1 =>
        match escapedRune next with
        | none => (({}, some (.Syntax (errors.InvalidEscapeSequence r))), afterRead next rs1)
        | some escaped =>
          if escaped ≠ eof then stringLoop rs1 (buf ++ [escaped])
          else stringLoop rs1 (buf ++ [r])
    else stringLoop rs (buf ++ [r])

/-- `Scanner.scanString`. -/
def Scanner.scanString (table : Nat → Bool) (s : Scanner) : (Token × Option Error) × Scanner :=
  let (r, s) := s.read
  if r ≠ 34 then
    (({}, some (.Errorf ("expected a double quote (\"), got " ++ errors.fmtQ table r))), s)
  else stringLoop s.rd.input []

/-- `Scanner.Scan`. -/
def Scanner.Scan (table : Nat → Bool) (s : Scanner) : (Token × Option Error) × Scanner :=
  let (r, s) := s.read
  if !isSourceCharacter r then
    ((illegalToken [r], some (.Syntax (errors.InvalidCharacter table r))), s)
  else if isWhiteSpace r then s.unread.scanWhiteSpace
  else if isFirstNameCharacter r then s.unread.scanName table
  else if isFirstNumberCharacter r then s.unread.scanNumber table
  else if r = 33 then (({ Kind := BANG }, none), s)
  else if r = 34 then
    let (b, s) := s.isBlockString
    if b then s.unread.scanBlockString else s.unread.scanString table
  else if r = 35 then s.unread.scanComment
  else if r = 36 then (({ Kind := DOLLAR }, none), s)
  else if r = 38 then (({ Kind := AMP }, none), s)
  else if r = 40 then (({ Kind := PAREN_L }, none), s)
  else if r = 41 then (({ Kind := PAREN_R }, none), s)
  else if r = 46 then
    let (next, s) := s.read
    let s := if next ≠ 46 then s else s.read.2
    (({ Kind := SPREAD }, none), s)
  else if r = 58 then (({ Kind := COLON }, none), s)
  else if r = 61 then (({ Kind := EQUALS }, none), s)
  else if r = 64 then (({ Kind := AT }, none), s)
  else if r = 91 then (({ Kind := BRACKET_L }, none), s)
  else if r = 93 then (({ Kind := BRACKET_R }, none), s)
  else if r = 123 then (({ Kind := BRACE_L }, none), s)
  else if r = 124 then (({ Kind := PIPE }, none), s)
  else if r = 125 then (({ Kind := BRACE_R }, none), s)
  else if r = eof then (({ Kind := EOF }, none), s)
  else (({ Kind := ILLEGAL, Value := [r] }, some (.Syntax (errors.UnexpectedCharacter table r))), s)

/-! ## The one-token buffer of parser.go -/

/-- The `tokenBuffer` of parser.go. -/
structure tokenBuffer where
  prev : Token := {}
  n : Int := 0
deriving DecidableEq, Repr

/-- The `Parser` of parser.go. -/
structure Parser where
  s : Scanner
  buf : tokenBuffer := {}
deriving DecidableEq, Repr

/-- `NewParser` on a reader that delivers the runes `input`. -/
def NewParser (input : List Nat) : Parser := { s := NewScanner input }

/-- `Parser.scan`. -/
def Parser.scan (table : Nat → Bool) (p : Parser) : (Token × Option Error) × Parser :=
  if p.buf.n ≠ 0 then
    ((p.buf.prev, none), { p with buf := { p.buf with n := 0 } })
  else
    match p.s.Scan table with
    | ((tok, some err), s) => ((tok, some err), { p with s := s })
    | ((tok, none), s) => ((tok, none), { s := s, buf := { p.buf with prev := tok } })

/-- `Parser.unscan`. -/
def Parser.unscan (p : Parser) : Parser := { p with buf := { p.buf with n := 1 } }

/-- `Parser.scanIgnoreWhitespace`. -/
def Parser.scanIgnoreWhitespace (table : Nat → Bool) (p : Parser) : (Token × Option Error) × Parser :=
  match p.scan table with
  | ((tok, some err), p) => ((tok, some err), p)
  | ((tok, none), p) => if tok.Kind = WHITE_SPACE then p.scan table else ((tok, none), p)

/-! ## The literal grammars, in the words of the specification -/

/-- An integer part: a single `0`, or a non-zero digit followed by digits. -/
def isIntegerPart : List Nat → Bool
  | [] => false
  | d :: tl => (d = 48 && tl = []) || (isNonZeroDigit d && tl.all isDigit)

/-- A valid integer literal: an optional `-`, then an integer part. -/
def isIntValue : List Nat → Bool
  | [] => false
  | c :: m => if c = 45 then isIntegerPart m else isIntegerPart (c :: m)

/-- A continuation that cannot extend a number: it is empty or begins with a rune
other than a digit, `.`, `e` and `E`. -/
def endsNumber (rest : List Nat) : Bool :=
  match rest with
  | [] => true
  | c :: _ => !isDigit c && c ≠ 46 && c ≠ 101 && c ≠ 69

/-- A fractional part: `.` followed by one or more digits. -/
def isFractionalPart : List Nat → Bool
  | [] => false
  | c :: ds => c = 46 && ds ≠ [] && ds.all isDigit

/-- An exponent part: `e` or `E`, an optional sign, one or more digits. -/
def isExponentPart : List Nat → Bool
  | [] => false
  | _ :: [] => false
  | c :: s :: ds =>
    (c = 101 || c = 69) &&
      (if s = 45 ∨ s = 43 then ds ≠ [] && ds.all isDigit else (s :: ds).all isDigit)

/-- The ways of cutting a text in two. -/
def cuts (v : List Nat) : List (List Nat × List Nat) :=
  (List.range (v.length + 1)).map fun i => (v.take i, v.drop i)

/-- A valid float literal: a valid integer literal followed by a fractional part,
or by an exponent part, or by both. -/
def isFloatValue (v : List Nat) : Bool :=
  (cuts v).any fun p =>
    isIntValue p.1 &&
      (isFractionalPart p.2 || isExponentPart p.2 ||
        (cuts p.2).any fun q => isFractionalPart q.1 && isExponentPart q.2)

/-- An ordinary rune of a string body: anything except `"`, the backslash, LF,
CR and NUL. -/
def isOrdinary (c : Nat) : Bool :=
  c ≠ 34 && c ≠ 92 && c ≠ 10 && c ≠ 13 && c ≠ 0

/-- The two-character escapes `\" \\ \/ \b \f \n \r \t`: the rune after the
backslash, and the rune the escape denotes (`"`, the backslash, `/`, U+0008,
U+000C, U+000A, U+000D, U+0009). -/
def escapes : List (Nat × Nat) :=
  [(34, 34), (92, 92), (47, 47), (98, 8), (102, 12), (110, 10), (114, 13), (116, 9)]

/-- An element of the body of a string literal: an ordinary rune, or a
two-character escape given by the rune after the backslash and the rune
denoted. -/
inductive StringItem where
  | ordinary (c : Nat)
  | escape (letter denoted : Nat)
deriving DecidableEq, Repr

/-- The element is an ordinary rune or one of the eight escapes. -/
def StringItem.wellFormed : StringItem → Bool
  | .ordinary c => isOrdinary c
  | .escape e v => decide ((e, v) ∈ escapes)

/-- The source text of an element. -/
def StringItem.source : StringItem → List Nat
  | .ordinary c => [c]
  | .escape e _ => [92, e]

/-- The rune an element denotes. -/
def StringItem.denotes : StringItem → Nat
  | .ordinary c => c
  | .escape _ v => v

/-- The source text of a body. -/
def bodySource : List StringItem → List Nat
  | [] => []
  | i :: is => i.source ++ bodySource is

/-- The thirteen single-character punctuators `! $ & ( ) : = @ [ ] { | }`, each
with the kind of its token. -/
def punctuators : List (Nat × TokenKind) :=
  [(33, BANG), (36, DOLLAR), (38, AMP), (40, PAREN_L), (41, PAREN_R), (58, COLON),
    (61, EQUALS), (64, AT), (91, BRACKET_L), (93, BRACKET_R), (123, BRACE_L), (124, PIPE),
    (125, BRACE_R)]

/-- The runes that begin a token of their own in the second `switch` of `Scan`:
the thirteen punctuators, `.`, `"` and `#`. -/
def dispatched : List Nat :=
  [33, 36, 38, 40, 41, 58, 61, 64, 91, 93, 123, 124, 125, 46, 34, 35]

/-- A rune that a comment may hold: the tab, or anything from U+0020 on. -/
def isCommentRune (c : Nat) : Bool :=
  c = 9 || 32 ≤ c

/-- A text that does not begin with a white space rune. -/
def startsWithoutWhiteSpace (body : List Nat) : Bool :=
  match body with
  | [] => true
  | c :: _ => !isWhiteSpace c

/-- A table of printable runes for the examples, which quote no rune above
U+00FF: it holds no rune. -/
def emptyTable : Nat → Bool := fun _ => false

/-! ## The reader and the loops -/

section Reader

variable (r : Nat) (rs : List Nat) (l : Option Nat)

@[simp] theorem read_cons : Scanner.read ⟨⟨r :: rs, l⟩⟩ = (r, afterRead r rs) := rfl

@[simp] theorem read_nil : Scanner.read ⟨⟨[], l⟩⟩ = (eof, atEnd) := rfl

@[simp] theorem unread_some : Scanner.unread ⟨⟨rs, some r⟩⟩ = ⟨⟨r :: rs, none⟩⟩ := rfl

@[simp] theorem unread_none : Scanner.unread ⟨⟨rs, none⟩⟩ = ⟨⟨rs, none⟩⟩ := rfl

@[simp] theorem peek_cons : Scanner.peek ⟨⟨r :: rs, l⟩⟩ = (r, ⟨⟨r :: rs, none⟩⟩) := rfl

@[simp] theorem peek_nil : Scanner.peek ⟨⟨[], l⟩⟩ = (eof, atEnd) := rfl

end Reader

variable (table : Nat → Bool)

/-- A digit loop reads the digits `ds` and the rune after them; the `unread` that
follows the loop leaves exactly `rest`. -/
theorem digitLoop_append (ds rest buf : List Nat) (hds : ds.all isDigit = true)
    (hrest : ∀ c ∈ rest.head?, isDigit c = false) :
    (digitLoop (ds ++ rest) buf).1 = buf ++ ds ∧
      (digitLoop (ds ++ rest) buf).2.unread = ⟨⟨rest, none⟩⟩ := by
  induction ds generalizing buf with
  | nil =>
    cases rest with
    | nil => exact ⟨by simp [digitLoop], rfl⟩
    | cons c cs =>
      have hc : isDigit c = false := hrest c (by simp)
      simp [digitLoop, hc]
  | cons d tl ih =>
    have hd : isDigit d = true := by simp at hds; exact hds.1
    have htl : tl.all isDigit = true := by simp at hds ⊢; exact hds.2
    have := ih (buf ++ [d]) htl
    simpa [digitLoop, hd] using this

/-- The first rune of a continuation that cannot extend a number is no digit. -/
theorem endsNumber_head (rest : List Nat) (hrest : endsNumber rest = true) :
    ∀ c ∈ rest.head?, isDigit c = false := by
  intro c hc
  cases rest with
  | nil => simp at hc
  | cons x xs =>
    simp at hc
    subst hc
    simp [endsNumber] at hrest
    exact hrest.1.1.1

/-- After the leading-zero check, digits followed by a continuation that cannot
extend a number give an INT token and leave the continuation. -/
theorem scanNumberTail_int (ds rest buf : List Nat) (l : Option Nat)
    (hds : ds.all isDigit = true) (hrest : endsNumber rest = true) :
    Scanner.scanNumberTail ⟨⟨ds ++ rest, l⟩⟩ buf =
      (({ Kind := INT, Value := buf ++ ds }, none), ⟨⟨rest, none⟩⟩) := by
  obtain ⟨h1, h2⟩ := digitLoop_append ds rest buf hds (endsNumber_head rest hrest)
  rcases hd : digitLoop (ds ++ rest) buf with ⟨b, s1⟩
  rw [hd] at h1 h2
  simp only at h1 h2
  subst h1
  cases rest with
  | nil =>
    simp only [Scanner.scanNumberTail, hd, h2]
    simp [eof]
  | cons x xs =>
    simp [endsNumber] at hrest
    obtain ⟨⟨⟨-, h46⟩, h101⟩, h69⟩ := hrest
    simp only [Scanner.scanNumberTail, hd, h2]
    simp [h46, h101, h69]

/-- An integer part followed by a continuation that cannot extend a number:
`scanNumber`, entered with or without a `-` already in the buffer, gives an INT
token and leaves the continuation. -/
theorem scanNumber_integerPart (m rest : List Nat) (l : Option Nat)
    (hm : isIntegerPart m = true) (hrest : endsNumber rest = true) :
    Scanner.scanNumber table ⟨⟨m ++ rest, l⟩⟩ =
        (({ Kind := INT, Value := m }, none), ⟨⟨rest, none⟩⟩) ∧
      Scanner.scanNumber table ⟨⟨45 :: (m ++ rest), l⟩⟩ =
        (({ Kind := INT, Value := 45 :: m }, none), ⟨⟨rest, none⟩⟩) := by
  cases m with
  | nil => simp [isIntegerPart] at hm
  | cons d tl =>
    simp only [isIntegerPart, Bool.or_eq_true, Bool.and_eq_true, decide_eq_true_eq] at hm
    rcases hm with ⟨hd, htl⟩ | ⟨hd, htl⟩
    · subst hd htl
      have hnd : isDigit (Scanner.peek ⟨⟨rest, some 48⟩⟩).1 = false := by
        cases rest with
        | nil => simp [eof, isDigit]
        | cons x xs => simpa using endsNumber_head _ hrest x (by simp)
      have ht := fun b => scanNumberTail_int [] rest b none (by simp) hrest
      simp only [List.nil_append] at ht
      have hp : (Scanner.peek ⟨⟨rest, some 48⟩⟩).2 = ⟨⟨rest, none⟩⟩ := by
        cases rest <;> rfl
      constructor
      · simp [Scanner.scanNumber, hnd, hp, ht]
      · simp [Scanner.scanNumber, hnd, hp, ht]
    · have hd45 : d ≠ 45 := by
        simp [isNonZeroDigit, isDigit] at hd; omega
      have hd48 : d ≠ 48 := by
        simp [isNonZeroDigit] at hd; exact hd.1
      have hds : (d :: tl).all isDigit = true := by
        simp [isNonZeroDigit] at hd
        simp [hd.2]
        simpa using htl
      have ht := fun b => scanNumberTail_int (d :: tl) rest b none hds hrest
      simp only [List.cons_append] at ht
      constructor
      · simp [Scanner.scanNumber, hd45, hd48, ht]
      · simp [Scanner.scanNumber, hd48, ht]

/-- C4: for every valid integer literal `n` (an optional `-`, then a single `0` or
a non-zero digit followed by digits) and every continuation `rest` that is empty
or begins with a rune other than a digit, `.`, `e` and `E`, both `scanNumber` and
`Scan` on `n ++ rest` return an INT token whose value is `n`, with no error, and
leave exactly `rest` unread. -/
theorem scanNumber_valid_int (n rest : List Nat) (l : Option Nat)
    (hn : isIntValue n = true) (hrest : endsNumber rest = true) :
    Scanner.scanNumber table ⟨⟨n ++ rest, l⟩⟩ =
        (({ Kind := INT, Value := n }, none), ⟨⟨rest, none⟩⟩) ∧
      Scanner.Scan table ⟨⟨n ++ rest, l⟩⟩ =
        (({ Kind := INT, Value := n }, none), ⟨⟨rest, none⟩⟩) := by
  cases n with
  | nil => simp [isIntValue] at hn
  | cons c m =>
    have key : Scanner.scanNumber table ⟨⟨c :: m ++ rest, none⟩⟩ =
        (({ Kind := INT, Value := c :: m }, none), ⟨⟨rest, none⟩⟩) := by
      simp only [isIntValue] at hn
      split at hn
      · next h => subst h; exact (scanNumber_integerPart table m rest none hn hrest).2
      · exact (scanNumber_integerPart table (c :: m) rest none hn hrest).1
    have hfirst : isFirstNumberCharacter c = true ∧ 48 ≤ c + 3 ∧ c ≤ 57 := by
      simp only [isIntValue] at hn
      split at hn
      · next h => subst h; decide
      · simp [isIntegerPart, isNonZeroDigit, isDigit] at hn
        simp [isFirstNumberCharacter, isDigit]
        omega
    obtain ⟨hf, hlo, hhi⟩ := hfirst
    have hsrc : isSourceCharacter c = true := by
      simp [isSourceCharacter]; omega
    have hws : isWhiteSpace c = false := by
      simp [isWhiteSpace]; omega
    have hname : isFirstNameCharacter c = false := by
      simp [isFirstNameCharacter, isLetter]; omega
    constructor
    · have : Scanner.scanNumber table ⟨⟨c :: m ++ rest, l⟩⟩ =
          Scanner.scanNumber table ⟨⟨c :: m ++ rest, none⟩⟩ := rfl
      rw [this, key]
    · simp only [Scanner.Scan, List.cons_append, read_cons, hsrc, hws, hname, hf]
      simpa using key

/-- C4, at the literal `-120` followed by `abc`. -/
theorem scanNumber_valid_int_witness :
    isIntValue (runes "-120") = true ∧ endsNumber (runes "abc") = true ∧
      (Scanner.scanNumber emptyTable (NewScanner (runes "-120abc")) =
          (({ Kind := INT, Value := runes "-120" }, none), ⟨⟨runes "abc", none⟩⟩) ∧
        Scanner.Scan emptyTable (NewScanner (runes "-120abc")) =
          (({ Kind := INT, Value := runes "-120" }, none), ⟨⟨runes "abc", none⟩⟩)) :=
  ⟨by decide, by decide,
    scanNumber_valid_int emptyTable (runes "-120") (runes "abc") none (by decide) (by decide)⟩

/-- The message of `InvalidNumber` for a digit shows the digit between single
quotes. -/
theorem InvalidNumber_digit_message (d : Nat) (hd : isDigit d = true) :
    (errors.InvalidNumber table d "unexpected digit after 0").Message =
      "invalid number: unexpected digit after 0: '" ++ String.singleton (Char.ofNat d) ++ "'" := by
  simp only [isDigit, Bool.and_eq_true, decide_eq_true_eq] at hd
  obtain ⟨h1, h2⟩ := hd
  interval_cases d <;> rfl

/-- C6: on every input that begins with `0` or `-0` immediately followed by a
digit `d`, `scanNumber` returns the error `InvalidNumber`, whose message is
`invalid number: unexpected digit after 0: 'd'`, together with the zero token,
which is neither INT nor FLOAT; on the inputs `0`, `0.0` and `-0` it returns a
token and no error. -/
theorem scanNumber_digit_after_zero (d : Nat) (rest : List Nat) (l : Option Nat)
    (hd : isDigit d = true) :
    (Scanner.scanNumber table ⟨⟨48 :: d :: rest, l⟩⟩ =
        (({}, some (.Syntax (errors.InvalidNumber table d "unexpected digit after 0"))),
          ⟨⟨d :: rest, none⟩⟩) ∧
      Scanner.scanNumber table ⟨⟨45 :: 48 :: d :: rest, l⟩⟩ =
        (({}, some (.Syntax (errors.InvalidNumber table d "unexpected digit after 0"))),
          ⟨⟨d :: rest, none⟩⟩)) ∧
    (errors.InvalidNumber table d "unexpected digit after 0").Message =
      "invalid number: unexpected digit after 0: '" ++ String.singleton (Char.ofNat d) ++ "'" ∧
    (({} : Token).Kind ≠ INT ∧ ({} : Token).Kind ≠ FLOAT) ∧
    (Scanner.scanNumber table (NewScanner (runes "0")) =
        (({ Kind := INT, Value := runes "0" }, none), ⟨⟨[], none⟩⟩) ∧
      Scanner.scanNumber table (NewScanner (runes "0.0")) =
        (({ Kind := FLOAT, Value := runes "0.0" }, none), ⟨⟨[], none⟩⟩) ∧
      Scanner.scanNumber table (NewScanner (runes "-0")) =
        (({ Kind := INT, Value := runes "-0" }, none), ⟨⟨[], none⟩⟩)) := by
  refine ⟨⟨?_, ?_⟩, InvalidNumber_digit_message table d hd, ⟨by decide, by decide⟩,
    rfl, rfl, rfl⟩
  · simp [Scanner.scanNumber, hd]
  · simp [Scanner.scanNumber, hd]

/-- C6, at the input `01` of the test "disallows leading 0s". -/
theorem scanNumber_digit_after_zero_witness :
    isDigit 49 = true ∧
      Scanner.scanNumber emptyTable (NewScanner (runes "01")) =
        (({}, some (.Syntax { Message := "invalid number: unexpected digit after 0: '1'" })),
          ⟨⟨runes "1", none⟩⟩) :=
  ⟨by decide, (scanNumber_digit_after_zero emptyTable 49 [] none (by decide)).1.1⟩

/-- One iteration of the loop of `scanString`, whatever follows the rune read. -/
theorem stringLoop_cons (r : Nat) (rs buf : List Nat) :
    stringLoop (r :: rs) buf =
      if r = 34 then (({ Kind := STRING, Value := buf }, none), afterRead r rs)
      else if r = eof then (({}, some (.Errorf "unexpected EOF")), afterRead r rs)
      else if isLineTerminator r then
        (({}, some (.Errorf "unexpected line terminator")), afterRead r rs)
      else if r = 92 then
        match rs with
        | [] => (({}, some (.Syntax (errors.InvalidEscapeSequence r))), atEnd)
        | next :: rs1 =>
          match escapedRune next with
          | none => (({}, some (.Syntax (errors.InvalidEscapeSequence r))), afterRead next rs1)
          | some escaped =>
            if escaped ≠ eof then stringLoop rs1 (buf ++ [escaped])
            else stringLoop rs1 (buf ++ [r])
      else stringLoop rs (buf ++ [r]) := by
  cases rs <;> rfl


/-- The loop of `scanString` on a well-formed body followed by the closing quote. -/
theorem stringLoop_body (items : List StringItem) (rest buf : List Nat)
    (hwf : ∀ i ∈ items, i.wellFormed = true) :
    stringLoop (bodySource items ++ 34 :: rest) buf =
      (({ Kind := STRING, Value := buf ++ items.map StringItem.denotes }, none),
        afterRead 34 rest) := by
  induction items generalizing buf with
  | nil => simp [bodySource, stringLoop_cons]
  | cons i is ih =>
    have hi := hwf i (by simp)
    have his : ∀ j ∈ is, j.wellFormed = true := fun j hj => hwf j (by simp [hj])
    cases i with
    | ordinary c =>
      simp [StringItem.wellFormed, isOrdinary] at hi
      obtain ⟨⟨⟨⟨h34, h92⟩, h10⟩, h13⟩, h0⟩ := hi
      simp [bodySource, StringItem.source, StringItem.denotes, stringLoop_cons, h34, h92, h10, h13,
        h0, eof, isLineTerminator, ih _ his]
    | escape e v =>
      simp [StringItem.wellFormed, escapes] at hi
      rcases hi with ⟨rfl, rfl⟩ | ⟨rfl, rfl⟩ | ⟨rfl, rfl⟩ | ⟨rfl, rfl⟩ | ⟨rfl, rfl⟩ | ⟨rfl, rfl⟩ |
        ⟨rfl, rfl⟩ | ⟨rfl, rfl⟩ <;>
      simp [bodySource, StringItem.source, StringItem.denotes, stringLoop_cons, eof,
        isLineTerminator,
        escapedRune, ih _ his]

/-- C8: for every string literal whose body is made of ordinary runes (anything
except `"`, the backslash, LF, CR and NUL) and of the two-character escapes
`\" \\ \/ \b \f \n \r \t`, `scanString` returns a STRING token with no error
whose value is the body with every escape replaced by the rune it denotes and
every ordinary rune kept; it stops after the closing quote. -/
theorem scanString_escapes (items : List StringItem) (rest : List Nat) (l : Option Nat)
    (hwf : ∀ i ∈ items, i.wellFormed = true) :
    Scanner.scanString table ⟨⟨34 :: (bodySource items ++ 34 :: rest), l⟩⟩ =
      (({ Kind := STRING, Value := items.map StringItem.denotes }, none),
        afterRead 34 rest) := by
  simp [Scanner.scanString, stringLoop_body items rest [] hwf]

/-- C8, at the literal `"a\n\"/"` of source `"a\\n\\\"\\/"`. -/
theorem scanString_escapes_witness :
    (∀ i ∈ [StringItem.ordinary 97, .escape 110 10, .escape 34 34, .escape 47 47],
        i.wellFormed = true) ∧
      Scanner.scanString emptyTable (NewScanner (runes "\"a\\n\\\"\\/\"")) =
        (({ Kind := STRING, Value := [97, 10, 34, 47] }, none), afterRead 34 []) :=
  ⟨by decide,
    scanString_escapes emptyTable [.ordinary 97, .escape 110 10, .escape 34 34,
      .escape 47 47] [] none
      (by decide)⟩

/-- The loop of `scanString` fails when no quote comes before the end of the
input or before a line terminator. -/
theorem stringLoop_unterminated (n : Nat) :
    ∀ pre tail buf : List Nat, pre.length ≤ n → 34 ∉ pre →
      (tail = [] ∨ ∃ t rest, tail = t :: rest ∧ isLineTerminator t = true) →
      (stringLoop (pre ++ tail) buf).1.1 = {} ∧
        (stringLoop (pre ++ tail) buf).1.2.isSome = true := by
  induction n with
  | zero =>
    intro pre tail buf hlen _ htail
    have hpre : pre = [] := List.eq_nil_of_length_eq_zero (Nat.le_zero.mp hlen)
    subst hpre
    rcases htail with rfl | ⟨t, rest, rfl, ht⟩
    · simp [stringLoop]
    · have h34 : t ≠ 34 := by rintro rfl; simp [isLineTerminator] at ht
      simp only [List.nil_append, stringLoop_cons, h34, ht, if_true, if_false]
      split <;> simp
  | succ n ih =>
    intro pre tail buf hlen hq htail
    cases pre with
    | nil => exact ih [] tail buf (Nat.zero_le _) hq htail
    | cons c pre1 =>
      have hc : c ≠ 34 := fun h => hq (by simp [h])
      have hq1 : 34 ∉ pre1 := fun h => hq (by simp [h])
      have hlen1 : pre1.length ≤ n := by simpa using hlen
      simp only [List.cons_append, stringLoop_cons, hc, if_false]
      split
      · simp
      split
      · simp
      split
      · cases pre1 with
        | nil =>
          rcases htail with rfl | ⟨t, rest, rfl, ht⟩
          · simp
          · have : escapedRune t = none := by
              simp [isLineTerminator] at ht
              rcases ht with rfl | rfl <;> rfl
            simp [this]
        | cons nx pre2 =>
          have hq2 : 34 ∉ pre2 := fun h => hq1 (by simp [h])
          have hlen2 : pre2.length ≤ n := by simp at hlen1; omega
          simp only [List.cons_append]
          cases escapedRune nx with
          | none => simp
          | some e =>
            simp only
            split
            · exact ih pre2 tail _ hlen2 hq2 htail
            · exact ih pre2 tail _ hlen2 hq2 htail
      · exact ih pre1 tail _ hlen1 hq1 htail

/-- The loop of `scanString` on a well-formed body followed by a line terminator. -/
theorem stringLoop_lineTerminator (items : List StringItem) (t : Nat) (rest buf : List Nat)
    (hwf : ∀ i ∈ items, i.wellFormed = true) (ht : isLineTerminator t = true) :
    stringLoop (bodySource items ++ t :: rest) buf =
      (({}, some (.Errorf "unexpected line terminator")), afterRead t rest) := by
  induction items generalizing buf with
  | nil =>
    have h : t = 10 ∨ t = 13 := by simpa [isLineTerminator] using ht
    rcases h with rfl | rfl <;> simp [bodySource, stringLoop_cons, eof, isLineTerminator]
  | cons i is ih =>
    have hi := hwf i (by simp)
    have his : ∀ j ∈ is, j.wellFormed = true := fun j hj => hwf j (by simp [hj])
    cases i with
    | ordinary c =>
      simp [StringItem.wellFormed, isOrdinary] at hi
      obtain ⟨⟨⟨⟨h34, h92⟩, h10⟩, h13⟩, h0⟩ := hi
      simp [bodySource, StringItem.source, stringLoop_cons, h34, h92, h10, h13,
        h0, eof, isLineTerminator, ih _ his]
    | escape e v =>
      simp [StringItem.wellFormed, escapes] at hi
      rcases hi with ⟨rfl, rfl⟩ | ⟨rfl, rfl⟩ | ⟨rfl, rfl⟩ | ⟨rfl, rfl⟩ | ⟨rfl, rfl⟩ | ⟨rfl, rfl⟩ |
        ⟨rfl, rfl⟩ | ⟨rfl, rfl⟩ <;>
      simp [bodySource, StringItem.source, stringLoop_cons, eof, isLineTerminator,
        escapedRune, ih _ his]

/-- C10: on an opening quote followed by a body that contains no quote, up to the
end of the input, `scanString` returns an error together with the zero token,
never a STRING token; so it does when the body without a quote is followed by a
raw LF or CR; and when a raw LF or CR follows a well-formed body of ordinary
runes and escapes, the error is "unexpected line terminator". -/
theorem scanString_unterminated (body rest : List Nat) (items : List StringItem) (t : Nat)
    (l : Option Nat) (hbody : 34 ∉ body) (ht : isLineTerminator t = true)
    (hwf : ∀ i ∈ items, i.wellFormed = true) :
    ((Scanner.scanString table ⟨⟨34 :: body, l⟩⟩).1.1 = {} ∧
      (Scanner.scanString table ⟨⟨34 :: body, l⟩⟩).1.1.Kind ≠ STRING ∧
      (Scanner.scanString table ⟨⟨34 :: body, l⟩⟩).1.2.isSome = true) ∧
    ((Scanner.scanString table ⟨⟨34 :: (body ++ t :: rest), l⟩⟩).1.1 = {} ∧
      (Scanner.scanString table ⟨⟨34 :: (body ++ t :: rest), l⟩⟩).1.1.Kind ≠ STRING ∧
      (Scanner.scanString table ⟨⟨34 :: (body ++ t :: rest), l⟩⟩).1.2.isSome = true) ∧
    Scanner.scanString table ⟨⟨34 :: (bodySource items ++ t :: rest), l⟩⟩ =
      (({}, some (.Errorf "unexpected line terminator")), afterRead t rest) := by
  have h1 := stringLoop_unterminated body.length body [] [] (le_refl _) hbody (Or.inl rfl)
  have h2 := stringLoop_unterminated body.length body (t :: rest) [] (le_refl _) hbody
    (Or.inr ⟨t, rest, rfl, ht⟩)
  simp only [List.append_nil] at h1
  refine ⟨?_, ?_, ?_⟩
  · simp only [Scanner.scanString, read_cons, ne_eq, not_true_eq_false, if_false]
    exact ⟨h1.1, by rw [h1.1]; decide, h1.2⟩
  · simp only [Scanner.scanString, read_cons, ne_eq, not_true_eq_false, if_false]
    exact ⟨h2.1, by rw [h2.1]; decide, h2.2⟩
  · simp [Scanner.scanString, stringLoop_lineTerminator items t rest [] hwf ht]

/-- C10, at the unterminated literal `"abc` and at `"ab` followed by LF. -/
theorem scanString_unterminated_witness :
    34 ∉ runes "abc" ∧ isLineTerminator 10 = true ∧
      Scanner.scanString emptyTable (NewScanner (runes "\"abc")) =
        (({}, some (.Errorf "unexpected EOF")), atEnd) ∧
      Scanner.scanString emptyTable (NewScanner (runes "\"ab\nc\"")) =
        (({}, some (.Errorf "unexpected line terminator")), afterRead 10 (runes "c\"")) :=
  ⟨by decide, by decide, by decide,
    (scanString_unterminated emptyTable (runes "abc") (runes "c\"") [.ordinary 97, .ordinary 98] 10 none
      (by decide) (by decide) (by decide)).2.2⟩

/-- `scanWhiteSpace` always returns a WHITE_SPACE token and no error. -/
theorem scanWhiteSpace_kind (s : Scanner) :
    s.scanWhiteSpace.1.1.Kind = WHITE_SPACE ∧ s.scanWhiteSpace.1.2 = none := by
  simp [Scanner.scanWhiteSpace]

/-- `scanName` returns an ILLEGAL token or a NAME token. -/
theorem scanName_kind (s : Scanner) :
    (s.scanName table).1.1.Kind = ILLEGAL ∨ (s.scanName table).1.1.Kind = NAME := by
  simp only [Scanner.scanName]
  split <;> simp [illegalToken]

/-- After the leading-zero check `scanNumber` returns an INT or a FLOAT token. -/
theorem scanNumberTail_kind (s : Scanner) (buf : List Nat) :
    (s.scanNumberTail buf).1.1.Kind = INT ∨ (s.scanNumberTail buf).1.1.Kind = FLOAT := by
  simp only [Scanner.scanNumberTail]
  split <;> simp

/-- `scanNumber` returns the zero token, an INT token or a FLOAT token. -/
theorem scanNumber_kind (s : Scanner) :
    (s.scanNumber table).1.1.Kind = ILLEGAL ∨ (s.scanNumber table).1.1.Kind = INT ∨
      (s.scanNumber table).1.1.Kind = FLOAT := by
  simp only [Scanner.scanNumber]
  split_ifs <;> first | (simp; done) | exact Or.inr (scanNumberTail_kind _ _)

/-- `scanComment` always returns a COMMENT token and no error. -/
theorem scanComment_kind (s : Scanner) :
    s.scanComment.1.1.Kind = COMMENT ∧ s.scanComment.1.2 = none := by
  simp only [Scanner.scanComment]
  generalize (if s.peek.1 = 35 then s.peek.2.read.2 else s.peek.2) = s2
  have hw := (scanWhiteSpace_kind s2).2
  split
  · next h => rw [h] at hw; simp at hw
  · simp

/-- When `Scan` has read a quote and `isBlockString` answers no, the rune that
`scanString` reads first is not the quote: `scanString` fails. -/
theorem scanString_after_isBlockString (rs : List Nat)
    (h : (afterRead 34 rs).isBlockString.1 = false) :
    (((afterRead 34 rs).isBlockString.2.unread.scanString table)).1.1 = {} ∧
      (((afterRead 34 rs).isBlockString.2.unread.scanString table)).1.2.isSome = true := by
  cases rs with
  | nil => simp [Scanner.isBlockString, Scanner.scanString, eof]
  | cons x xs =>
    by_cases hx : x = 34
    · subst hx
      cases xs with
      | nil => simp [Scanner.isBlockString, Scanner.scanString, eof]
      | cons y ys =>
        by_cases hy : y = 34
        · subst hy
          simp [Scanner.isBlockString] at h
        · simp [Scanner.isBlockString, Scanner.scanString, hy]
    · simp [Scanner.isBlockString, Scanner.scanString, hx]

/-- `Scan` after the read of its first rune. -/
theorem Scan_cons (r : Nat) (rs : List Nat) (l : Option Nat) :
    Scanner.Scan table ⟨⟨r :: rs, l⟩⟩ =
      if !isSourceCharacter r then
        ((illegalToken [r], some (.Syntax (errors.InvalidCharacter table r))), afterRead r rs)
      else if isWhiteSpace r then (afterRead r rs).unread.scanWhiteSpace
      else if isFirstNameCharacter r then ((afterRead r rs).unread.scanName table)
      else if isFirstNumberCharacter r then ((afterRead r rs).unread.scanNumber table)
      else if r = 33 then (({ Kind := BANG }, none), afterRead r rs)
      else if r = 34 then
        if (afterRead r rs).isBlockString.1 then
          (afterRead r rs).isBlockString.2.unread.scanBlockString
        else ((afterRead r rs).isBlockString.2.unread.scanString table)
      else if r = 35 then (afterRead r rs).unread.scanComment
      else if r = 36 then (({ Kind := DOLLAR }, none), afterRead r rs)
      else if r = 38 then (({ Kind := AMP }, none), afterRead r rs)
      else if r = 40 then (({ Kind := PAREN_L }, none), afterRead r rs)
      else if r = 41 then (({ Kind := PAREN_R }, none), afterRead r rs)
      else if r = 46 then
        (({ Kind := SPREAD }, none),
          if (afterRead r rs).read.1 ≠ 46 then (afterRead r rs).read.2
          else (afterRead r rs).read.2.read.2)
      else if r = 58 then (({ Kind := COLON }, none), afterRead r rs)
      else if r = 61 then (({ Kind := EQUALS }, none), afterRead r rs)
      else if r = 64 then (({ Kind := AT }, none), afterRead r rs)
      else if r = 91 then (({ Kind := BRACKET_L }, none), afterRead r rs)
      else if r = 93 then (({ Kind := BRACKET_R }, none), afterRead r rs)
      else if r = 123 then (({ Kind := BRACE_L }, none), afterRead r rs)
      else if r = 124 then (({ Kind := PIPE }, none), afterRead r rs)
      else if r = 125 then (({ Kind := BRACE_R }, none), afterRead r rs)
      else if r = eof then (({ Kind := EOF }, none), afterRead r rs)
      else
        (({ Kind := ILLEGAL, Value := [r] }, some (.Syntax (errors.UnexpectedCharacter table r))),
          afterRead r rs) := by
  simp only [Scanner.Scan, read_cons]

/-- `Scan` never returns a STRING token and never an EOF token. -/
theorem Scan_kind (s : Scanner) :
    (s.Scan table).1.1.Kind ≠ STRING ∧ (s.Scan table).1.1.Kind ≠ EOF := by
  obtain ⟨⟨inp, l⟩⟩ := s
  cases inp with
  | nil => simp [Scanner.Scan, eof, isSourceCharacter, illegalToken]
  | cons r rs =>
    rw [Scan_cons]
    by_cases h0 : (!isSourceCharacter r) = true
    · rw [if_pos h0]; simp [illegalToken]
    rw [if_neg h0]
    have hr0 : r ≠ eof := by
      rintro rfl
      simp [eof, isSourceCharacter] at h0
    have hws := (scanWhiteSpace_kind (afterRead r rs).unread).1
    have hname := scanName_kind table (afterRead r rs).unread
    have hnum := scanNumber_kind table (afterRead r rs).unread
    have hcom := (scanComment_kind (afterRead r rs).unread).1
    have hstr : r = 34 →
        (if (afterRead r rs).isBlockString.1 = true then
            (afterRead r rs).isBlockString.2.unread.scanBlockString
          else ((afterRead r rs).isBlockString.2.unread.scanString table)).1.1.Kind = BLOCK_STRING ∨
        (if (afterRead r rs).isBlockString.1 = true then
            (afterRead r rs).isBlockString.2.unread.scanBlockString
          else ((afterRead r rs).isBlockString.2.unread.scanString table)).1.1.Kind = ILLEGAL := by
      rintro rfl
      by_cases hb : (afterRead 34 rs).isBlockString.1 = true
      · rw [if_pos hb]; exact Or.inl rfl
      · rw [if_neg hb]
        have := (scanString_after_isBlockString table rs (by simpa using hb)).1
        rw [this]; exact Or.inr rfl
    generalize (afterRead r rs).unread.scanWhiteSpace = x1 at hws ⊢
    generalize ((afterRead r rs).unread.scanName table) = x2 at hname ⊢
    generalize ((afterRead r rs).unread.scanNumber table) = x3 at hnum ⊢
    generalize (afterRead r rs).unread.scanComment = x4 at hcom ⊢
    generalize (if (afterRead r rs).isBlockString.1 = true then
            (afterRead r rs).isBlockString.2.unread.scanBlockString
          else ((afterRead r rs).isBlockString.2.unread.scanString table)) = x5 at hstr ⊢
    by_cases hc : isWhiteSpace r = true
    · rw [if_pos hc]; rw [hws]; simp
    rw [if_neg hc]; clear hc
    by_cases hc : isFirstNameCharacter r = true
    · rw [if_pos hc]; rcases hname with h | h <;> rw [h] <;> simp
    rw [if_neg hc]; clear hc
    by_cases hc : isFirstNumberCharacter r = true
    · rw [if_pos hc]; rcases hnum with h | h | h <;> rw [h] <;> simp
    rw [if_neg hc]; clear hc
    by_cases hc : r = 33
    · rw [if_pos hc]; simp
    rw [if_neg hc]; clear hc
    by_cases hc : r = 34
    · rw [if_pos hc]; rcases hstr hc with h | h <;> rw [h] <;> simp
    rw [if_neg hc]; clear hc
    by_cases hc : r = 35
    · rw [if_pos hc]; rw [hcom]; simp
    rw [if_neg hc]; clear hc
    by_cases hc : r = 36
    · rw [if_pos hc]; simp
    rw [if_neg hc]; clear hc
    by_cases hc : r = 38
    · rw [if_pos hc]; simp
    rw [if_neg hc]; clear hc
    by_cases hc : r = 40
    · rw [if_pos hc]; simp
    rw [if_neg hc]; clear hc
    by_cases hc : r = 41
    · rw [if_pos hc]; simp
    rw [if_neg hc]; clear hc
    by_cases hc : r = 46
    · rw [if_pos hc]; simp
    rw [if_neg hc]; clear hc
    by_cases hc : r = 58
    · rw [if_pos hc]; simp
    rw [if_neg hc]; clear hc
    by_cases hc : r = 61
    · rw [if_pos hc]; simp
    rw [if_neg hc]; clear hc
    by_cases hc : r = 64
    · rw [if_pos hc]; simp
    rw [if_neg hc]; clear hc
    by_cases hc : r = 91
    · rw [if_pos hc]; simp
    rw [if_neg hc]; clear hc
    by_cases hc : r = 93
    · rw [if_pos hc]; simp
    rw [if_neg hc]; clear hc
    by_cases hc : r = 123
    · rw [if_pos hc]; simp
    rw [if_neg hc]; clear hc
    by_cases hc : r = 124
    · rw [if_pos hc]; simp
    rw [if_neg hc]; clear hc
    by_cases hc : r = 125
    · rw [if_pos hc]; simp
    rw [if_neg hc]; clear hc
    rw [if_neg hr0]
    simp

/-- C1 (fails in the code): on the string literal `"abc"`, `Scan` returns the zero
token and the error of `scanString` about a missing double quote, because the
`unread` after `isBlockString` has nothing to put back and `scanString` starts at
`a`; `scanString` called on the same input returns the STRING token `abc`; and
on no input at all does `Scan` return a STRING token. -/
theorem Scan_string_literal :
    Scanner.Scan table (NewScanner (runes "\"abc\"")) =
        (({}, some (.Errorf "expected a double quote (\"), got 'a'")),
          afterRead 97 (runes "bc\"")) ∧
      Scanner.scanString table (NewScanner (runes "\"abc\"")) =
        (({ Kind := STRING, Value := runes "abc" }, none), afterRead 34 []) ∧
      ∀ s : Scanner, (s.Scan table).1.1.Kind ≠ STRING :=
  ⟨rfl, rfl, fun s => (Scan_kind table s).1⟩

/-- C2 (fails in the code): at the end of the input `Scan` returns an ILLEGAL token
whose value is the rune `eof`, together with the error `InvalidCharacter`, since
`eof` is no source character and that check comes first; on no input at all does
`Scan` return an EOF token. -/
theorem Scan_end_of_input (l : Option Nat) :
    Scanner.Scan table ⟨⟨[], l⟩⟩ =
        (({ Kind := ILLEGAL, Value := [0] },
            some (.Syntax
              { Message := "syntax error: cannot contain the invalid character '\\x00'" })),
          atEnd) ∧
      ∀ s : Scanner, (s.Scan table).1.1.Kind ≠ EOF :=
  ⟨by rfl, fun s => (Scan_kind table s).2⟩

/-- C3 (fails in the code): on every input that begins with an underscore, `Scan`
returns an ILLEGAL token whose value is the underscore, together with the error
`InvalidCharacter`: `scanName` accepts a letter only as the first rune. -/
theorem Scan_underscore (rest : List Nat) (l : Option Nat) :
    Scanner.Scan table ⟨⟨95 :: rest, l⟩⟩ =
      (({ Kind := ILLEGAL, Value := [95] },
          some (.Syntax { Message := "syntax error: cannot contain the invalid character '_'" })),
        afterRead 95 rest) := by
  rw [Scan_cons]
  rfl

/-- The loop of `scanName` reads the name characters `cs` and stops at a rune
that is no name character, or at the end of the input. -/
theorem nameLoop_append (cs rest buf : List Nat) (hcs : cs.all isNameCharacter = true)
    (hrest : ∀ c ∈ rest.head?, isNameCharacter c = false) :
    (nameLoop (cs ++ rest) buf).1 = buf ++ cs := by
  induction cs generalizing buf with
  | nil =>
    cases rest with
    | nil => simp [nameLoop]
    | cons c xs =>
      have hc : isNameCharacter c = false := hrest c (by simp)
      simp only [List.nil_append, nameLoop, hc]
      split <;> simp
  | cons d tl ih =>
    have hd : isNameCharacter d = true := by simp at hcs; exact hcs.1
    have htl : tl.all isNameCharacter = true := by simp at hcs ⊢; exact hcs.2
    have hd0 : d ≠ eof := by
      rintro rfl
      simp [eof, isNameCharacter, isLetter, isDigit] at hd
    simp [nameLoop, hd, hd0, ih (buf ++ [d]) htl]

/-- A name that begins with a letter: `Scan` returns a NAME token whose value is
the maximal run of name characters, with no error. -/
theorem Scan_letter_name (c : Nat) (cs rest : List Nat) (l : Option Nat)
    (hc : isLetter c = true) (hcs : cs.all isNameCharacter = true)
    (hrest : ∀ x ∈ rest.head?, isNameCharacter x = false) :
    (Scanner.Scan table ⟨⟨c :: cs ++ rest, l⟩⟩).1 = ({ Kind := NAME, Value := c :: cs }, none) := by
  have hsrc : isSourceCharacter c = true := by
    simp [isLetter] at hc; simp [isSourceCharacter]; omega
  have hws : isWhiteSpace c = false := by
    simp [isLetter] at hc; simp [isWhiteSpace]; omega
  have hname : isFirstNameCharacter c = true := by simp [isFirstNameCharacter, hc]
  rw [List.cons_append, Scan_cons]
  simp [hsrc, hws, hname, Scanner.scanName, hc, nameLoop_append cs rest [c] hcs hrest]

/-- C5 (fails in the code): `1e1` is a valid float literal, an integer part
followed by an exponent part, and `scanNumber`, as well as `Scan`, returns for it
an INT token with value `1e1`: only the branch of the fractional part sets the
kind to FLOAT, as for `1.2e1`. -/
theorem scanNumber_exponent_only :
    isFloatValue (runes "1e1") = true ∧
      Scanner.scanNumber table (NewScanner (runes "1e1")) =
        (({ Kind := INT, Value := runes "1e1" }, none), atEnd) ∧
      Scanner.Scan table (NewScanner (runes "1e1")) =
        (({ Kind := INT, Value := runes "1e1" }, none), atEnd) ∧
      Scanner.scanNumber table (NewScanner (runes "1.2e1")) =
        (({ Kind := FLOAT, Value := runes "1.2e1" }, none), atEnd) :=
  ⟨by decide, rfl, rfl, rfl⟩

/-- C7 (fails in the code): `Scan` returns without error an INT token with value
`-`, a FLOAT token with value `1.`, an INT token with value `1e` and a FLOAT
token with value `-.e+`, none of which is a valid integer or float literal; and it
returns an INT token for `1e1`, which has an exponent part. -/
theorem Scan_malformed_number :
    (Scanner.Scan table (NewScanner (runes "-")) =
        (({ Kind := INT, Value := runes "-" }, none), atEnd) ∧
      isIntValue (runes "-") = false ∧ isFloatValue (runes "-") = false) ∧
    (Scanner.Scan table (NewScanner (runes "1.")) =
        (({ Kind := FLOAT, Value := runes "1." }, none), atEnd) ∧
      isIntValue (runes "1.") = false ∧ isFloatValue (runes "1.") = false) ∧
    (Scanner.Scan table (NewScanner (runes "1e")) =
        (({ Kind := INT, Value := runes "1e" }, none), atEnd) ∧
      isIntValue (runes "1e") = false ∧ isFloatValue (runes "1e") = false) ∧
    (Scanner.Scan table (NewScanner (runes "-.e+")) =
        (({ Kind := FLOAT, Value := runes "-.e+" }, none), atEnd) ∧
      isIntValue (runes "-.e+") = false ∧ isFloatValue (runes "-.e+") = false) ∧
    (Scanner.Scan table (NewScanner (runes "1e1")) =
        (({ Kind := INT, Value := runes "1e1" }, none), atEnd) ∧
      isFloatValue (runes "1e1") = true) :=
  ⟨⟨rfl, by decide, by decide⟩, ⟨rfl, by decide, by decide⟩,
    ⟨rfl, by decide, by decide⟩, ⟨rfl, by decide, by decide⟩,
    ⟨rfl, by decide⟩⟩

/-- C9 (fails in the code): the case `u` of the escape switch is empty, so for
every escape `\u` the loop of `scanString` writes the backslash, drops the `u`
and goes on with the four hexadecimal digits as ordinary runes; the literal of
the test "handles escaped unicode" gives a STRING token whose value is
`unicode \1234\5678\90AB\CDEF`, not the text with the four code points. -/
theorem scanString_unicode_escape :
    (∀ rest buf : List Nat, stringLoop (92 :: 117 :: rest) buf = stringLoop rest (buf ++ [92])) ∧
      Scanner.scanString table (NewScanner (runes "\"unicode \\u1234\\u5678\\u90AB\\uCDEF\"")) =
        (({ Kind := STRING, Value := runes "unicode \\1234\\5678\\90AB\\CDEF" }, none),
          afterRead 34 []) ∧
      runes "unicode \\1234\\5678\\90AB\\CDEF" ≠ runes "unicode \u1234\u5678\u90AB\uCDEF" ∧
      Scanner.scanString table (NewScanner (runes "\"\\u1234\"")) =
        (({ Kind := STRING, Value := [92, 49, 50, 51, 52] }, none), afterRead 34 []) :=
  ⟨fun rest buf => by simp [stringLoop_cons, eof, isLineTerminator, escapedRune],
    rfl, by decide, rfl⟩

/-- The loop of `scanWhiteSpace` reads a run of white space up to the end of the
input. -/
theorem whiteSpaceLoop_all (ws buf : List Nat) (hws : ws.all isWhiteSpace = true) :
    whiteSpaceLoop ws buf = (buf ++ ws, atEnd) := by
  induction ws generalizing buf with
  | nil => simp [whiteSpaceLoop]
  | cons w tl ih =>
    have hw : isWhiteSpace w = true := by simp at hws; exact hws.1
    have htl : tl.all isWhiteSpace = true := by simp at hws ⊢; exact hws.2
    have hw0 : w ≠ eof := by
      rintro rfl
      simp [eof, isWhiteSpace] at hw
    simp [whiteSpaceLoop, hw, hw0, ih (buf ++ [w]) htl]

/-- The loop of `scanWhiteSpace` reads a run of white space and puts back the
rune that ends it, when that rune is not NUL. -/
theorem whiteSpaceLoop_append (ws buf : List Nat) (c : Nat) (cs : List Nat)
    (hws : ws.all isWhiteSpace = true) (hc : isWhiteSpace c = false) (hc0 : c ≠ eof) :
    whiteSpaceLoop (ws ++ c :: cs) buf = (buf ++ ws, ⟨⟨c :: cs, none⟩⟩) := by
  induction ws generalizing buf with
  | nil => simp [whiteSpaceLoop, hc, hc0]
  | cons w tl ih =>
    have hw : isWhiteSpace w = true := by simp at hws; exact hws.1
    have htl : tl.all isWhiteSpace = true := by simp at hws ⊢; exact hws.2
    have hw0 : w ≠ eof := by
      rintro rfl
      simp [eof, isWhiteSpace] at hw
    simp [whiteSpaceLoop, hw, hw0, ih (buf ++ [w]) htl]

/-- A white space rune is a source character and no NUL. -/
theorem isWhiteSpace_source (w : Nat) (hw : isWhiteSpace w = true) :
    isSourceCharacter w = true := by
  simp [isWhiteSpace] at hw
  rcases hw with (rfl | rfl) | rfl <;> decide

/-- C11: for every non-empty text `s` made only of white space runes (space,
tab, comma), `Scan` on the input `s` returns one WHITE_SPACE token, with no
error, whose value is `s`, and leaves nothing of the input unread. -/
theorem Scan_white_space (s : List Nat) (l : Option Nat) (hs : s ≠ [])
    (hws : s.all isWhiteSpace = true) :
    Scanner.Scan table ⟨⟨s, l⟩⟩ = (({ Kind := WHITE_SPACE, Value := s }, none), atEnd) ∧
      (Scanner.Scan table ⟨⟨s, l⟩⟩).2.rd.input = [] := by
  cases s with
  | nil => exact absurd rfl hs
  | cons w ws =>
    have hw : isWhiteSpace w = true := by simp at hws; exact hws.1
    have htl : ws.all isWhiteSpace = true := by simp at hws ⊢; exact hws.2
    have key : Scanner.Scan table ⟨⟨w :: ws, l⟩⟩ =
        (({ Kind := WHITE_SPACE, Value := w :: ws }, none), atEnd) := by
      rw [Scan_cons]
      simp [isWhiteSpace_source w hw, hw, Scanner.scanWhiteSpace, whiteSpaceLoop_all ws [w] htl]
    exact ⟨key, by rw [key]⟩

/-- C11, at the input of a space, a comma, a tab and a space. -/
theorem Scan_white_space_witness :
    runes " ,\t " ≠ [] ∧ (runes " ,\t ").all isWhiteSpace = true ∧
      Scanner.Scan emptyTable (NewScanner (runes " ,\t ")) =
        (({ Kind := WHITE_SPACE, Value := runes " ,\t " }, none), atEnd) :=
  ⟨by decide, by decide, (Scan_white_space emptyTable (runes " ,\t ") none (by decide) (by decide)).1⟩

/-- C12: for each of the thirteen runes `! $ & ( ) : = @ [ ] { | }` and every
continuation `rest`, `Scan` on the rune followed by `rest` returns the token of
the kind of that rune, with no error, and has read that one rune only: what is
left unread is `rest`. -/
theorem Scan_punctuator (c : Nat) (k : TokenKind) (rest : List Nat) (l : Option Nat)
    (hck : (c, k) ∈ punctuators) :
    Scanner.Scan table ⟨⟨c :: rest, l⟩⟩ = (({ Kind := k }, none), afterRead c rest) ∧
      (Scanner.Scan table ⟨⟨c :: rest, l⟩⟩).2.rd.input = rest := by
  have key : Scanner.Scan table ⟨⟨c :: rest, l⟩⟩ = (({ Kind := k }, none), afterRead c rest) := by
    simp only [punctuators, List.mem_cons, Prod.mk.injEq, List.mem_singleton,
      List.not_mem_nil, or_false] at hck
    rcases hck with ⟨rfl, rfl⟩ | ⟨rfl, rfl⟩ | ⟨rfl, rfl⟩ | ⟨rfl, rfl⟩ | ⟨rfl, rfl⟩ |
      ⟨rfl, rfl⟩ | ⟨rfl, rfl⟩ | ⟨rfl, rfl⟩ | ⟨rfl, rfl⟩ | ⟨rfl, rfl⟩ | ⟨rfl, rfl⟩ |
      ⟨rfl, rfl⟩ | ⟨rfl, rfl⟩ <;> rfl
  exact ⟨key, by rw [key]⟩

/-- C12, at the input `(a`. -/
theorem Scan_punctuator_witness :
    (40, PAREN_L) ∈ punctuators ∧
      Scanner.Scan emptyTable (NewScanner (runes "(a")) =
        (({ Kind := PAREN_L }, none), afterRead 40 (runes "a")) :=
  ⟨by decide, (Scan_punctuator emptyTable 40 PAREN_L (runes "a") none (by decide)).1⟩

/-- C13 (fails in the code): on every input that begins with a dot `Scan` returns
a SPREAD token and no error, whatever follows: so it does on `.x`, on `..` and on
a single dot, which do not begin with three dots; the loop over the next two
runes stops at a rune that is no dot and reports nothing. -/
theorem Scan_dot :
    (∀ (rest : List Nat) (l : Option Nat),
        (Scanner.Scan table ⟨⟨46 :: rest, l⟩⟩).1 = ({ Kind := SPREAD }, none)) ∧
      Scanner.Scan table (NewScanner (runes ".x")) = (({ Kind := SPREAD }, none), afterRead 120 []) ∧
      Scanner.Scan table (NewScanner (runes "..")) = (({ Kind := SPREAD }, none), atEnd) ∧
      Scanner.Scan table (NewScanner (runes ".")) = (({ Kind := SPREAD }, none), atEnd) ∧
      Scanner.Scan table (NewScanner (runes "...")) = (({ Kind := SPREAD }, none), afterRead 46 []) :=
  ⟨fun rest l => by rw [Scan_cons]; rfl, rfl, rfl, rfl, rfl⟩

/-- C17: when the first rune `c` of the input is a source character that is no
white space, no letter or underscore, no digit or `-`, and none of
`! $ & ( ) : = @ [ ] { | } . " #`, `Scan` returns an ILLEGAL token whose value is
`c`, together with the error that `UnexpectedCharacter` builds for `c`, whose
message quotes `c` as the verb `%q` of Go does, whatever the table of printable
runes above U+00FF; for the single quote the message of that error is the hint
at the double quote. -/
theorem Scan_unexpected_character (c : Nat) (rest : List Nat) (l : Option Nat)
    (hsrc : isSourceCharacter c = true) (hws : isWhiteSpace c = false)
    (hname : isFirstNameCharacter c = false) (hnum : isFirstNumberCharacter c = false)
    (hdisp : c ∉ dispatched) :
    Scanner.Scan table ⟨⟨c :: rest, l⟩⟩ =
        (({ Kind := ILLEGAL, Value := [c] }, some (.Syntax (errors.UnexpectedCharacter table c))),
          afterRead c rest) ∧
      (errors.UnexpectedCharacter table 39).Message =
        "syntax error: unexpected single quote character ('), did you mean to use a double quote (\")?" := by
  refine ⟨?_, rfl⟩
  have h0 : c ≠ eof := by
    rintro rfl
    simp [eof, isSourceCharacter] at hsrc
  simp only [dispatched, List.mem_cons, List.not_mem_nil, or_false, not_or] at hdisp
  obtain ⟨h33, h36, h38, h40, h41, h58, h61, h64, h91, h93, h123, h124, h125, h46, h34, h35⟩ :=
    hdisp
  rw [Scan_cons]
  simp [hsrc, hws, hname, hnum, h0, h33, h36, h38, h40, h41, h58, h61, h64, h91, h93, h123,
    h124, h125, h46, h34, h35]

/-- C17, at a lone single quote. -/
theorem Scan_unexpected_character_witness :
    isSourceCharacter 39 = true ∧ 39 ∉ dispatched ∧
      Scanner.Scan emptyTable (NewScanner (runes "'")) =
        (({ Kind := ILLEGAL, Value := runes "'" },
            some (.Syntax { Message :=
              "syntax error: unexpected single quote character ('), did you mean to use a double quote (\")?" })),
          afterRead 39 []) :=
  ⟨by decide, by decide,
    (Scan_unexpected_character emptyTable 39 [] none (by decide) (by decide) (by decide) (by decide)
      (by decide)).1⟩

/-- The message of `UnexpectedCharacter` for two runes that meet the conditions
of C17, whatever the table: the question mark is quoted as it is, and the
no-break space U+00A0, which is not printable, by its escape. -/
theorem UnexpectedCharacter_messages :
    (errors.UnexpectedCharacter table 63).Message =
        "syntax error: cannot parse the unexpected character '?'" ∧
      (errors.UnexpectedCharacter table 160).Message =
        "syntax error: cannot parse the unexpected character '\\u00a0'" :=
  ⟨rfl, rfl⟩

/-- The loop of `scanComment` reads the runes a comment may hold and the control
rune that ends them. -/
theorem commentLoop_append (body buf : List Nat) (t : Nat) (rest : List Nat)
    (hbody : body.all isCommentRune = true) (ht : isCommentRune t = false) :
    commentLoop (body ++ t :: rest) buf = (buf ++ body, afterRead t rest) := by
  induction body generalizing buf with
  | nil =>
    have ht2 : t ≠ 9 ∧ t < 32 := by simpa [isCommentRune] using ht
    simp only [List.nil_append, commentLoop, List.append_nil]
    split
    · rfl
    · simp [ht2.1, ht2.2]
  | cons c tl ih =>
    have hc : c = 9 ∨ 32 ≤ c := by
      simp only [List.all_cons, Bool.and_eq_true] at hbody
      simpa [isCommentRune] using hbody.1
    have htl : tl.all isCommentRune = true := by
      simp only [List.all_cons, Bool.and_eq_true] at hbody
      exact hbody.2
    have hc0 : c ≠ eof := by
      simp only [eof]; omega
    have hc1 : ¬ (c ≠ 9 ∧ c < 32) := by omega
    have := ih (buf ++ [c]) htl
    simpa [commentLoop, hc0, hc1] using this

/-- C15: for every input `#`, a non-empty run `ws` of white space, a `body` that
holds no rune below U+0020 other than the tab and does not begin with white
space, a line terminator `t` (LF or CR) and any `rest`, `scanComment` returns a
COMMENT token whose value is `body`, with no error, and leaves exactly `rest`
unread; so does `Scan`. -/
theorem scanComment_line (ws body rest : List Nat) (t : Nat) (l : Option Nat)
    (hne : ws ≠ []) (hws : ws.all isWhiteSpace = true)
    (hbody : body.all isCommentRune = true) (hstart : startsWithoutWhiteSpace body = true)
    (ht : isLineTerminator t = true) :
    (Scanner.scanComment ⟨⟨35 :: (ws ++ (body ++ t :: rest)), l⟩⟩ =
        (({ Kind := COMMENT, Value := body }, none), afterRead t rest) ∧
      (Scanner.scanComment ⟨⟨35 :: (ws ++ (body ++ t :: rest)), l⟩⟩).2.rd.input = rest) ∧
    Scanner.Scan table ⟨⟨35 :: (ws ++ (body ++ t :: rest)), l⟩⟩ =
      (({ Kind := COMMENT, Value := body }, none), afterRead t rest) := by
  have ht2 : t = 10 ∨ t = 13 := by simpa [isLineTerminator] using ht
  have htc : isCommentRune t = false := by
    rcases ht2 with rfl | rfl <;> decide
  have hloop := commentLoop_append body [] t rest hbody htc
  cases ws with
  | nil => exact absurd rfl hne
  | cons w tl =>
    have htl : tl.all isWhiteSpace = true := by
      simp only [List.all_cons, Bool.and_eq_true] at hws
      exact hws.2
    have hwl : whiteSpaceLoop (tl ++ (body ++ t :: rest)) [w] =
        (w :: tl, ⟨⟨body ++ t :: rest, none⟩⟩) := by
      cases body with
      | nil =>
        have h1 : isWhiteSpace t = false := by rcases ht2 with rfl | rfl <;> decide
        have h2 : t ≠ eof := by rcases ht2 with rfl | rfl <;> decide
        simpa using whiteSpaceLoop_append tl [w] t rest htl h1 h2
      | cons c cs =>
        have h1 : isWhiteSpace c = false := by simpa [startsWithoutWhiteSpace] using hstart
        have hc : c = 9 ∨ 32 ≤ c := by
          simp only [List.all_cons, Bool.and_eq_true] at hbody
          simpa [isCommentRune] using hbody.1
        have h2 : c ≠ eof := by
          simp [isWhiteSpace] at h1
          simp only [eof]; omega
        simpa using whiteSpaceLoop_append tl [w] c (cs ++ t :: rest) htl h1 h2
    have key : ∀ l1, Scanner.scanComment ⟨⟨35 :: (w :: tl ++ (body ++ t :: rest)), l1⟩⟩ =
        (({ Kind := COMMENT, Value := body }, none), afterRead t rest) := by
      intro l1
      simp [Scanner.scanComment, Scanner.scanWhiteSpace, hwl, hloop]
    refine ⟨⟨key l, by rw [key l]⟩, ?_⟩
    rw [Scan_cons]
    exact key none

/-- C15, at the input of the specification, `# hello world`, LF, `NEXT`. -/
theorem scanComment_line_witness :
    runes " " ≠ [] ∧ (runes " ").all isWhiteSpace = true ∧
      (runes "hello world").all isCommentRune = true ∧
      startsWithoutWhiteSpace (runes "hello world") = true ∧ isLineTerminator 10 = true ∧
      Scanner.scanComment (NewScanner (runes "# hello world\nNEXT")) =
        (({ Kind := COMMENT, Value := runes "hello world" }, none),
          afterRead 10 (runes "NEXT")) :=
  ⟨by decide, by decide, by decide, by decide, by decide,
    (scanComment_line emptyTable (runes " ") (runes "hello world") (runes "NEXT") 10 none (by decide)
      (by decide) (by decide) (by decide) (by decide)).1.1⟩

/-- C14 (fails in the code): with no white space after the hash, `scanWhiteSpace`
still reads one rune before its loop, and `scanComment` drops it: for `#abc` the
COMMENT token has the value `bc`, for `#a` the empty value, and for `#`, LF,
`abc`, where the comment is empty and a control rune follows, the value `abc`;
with white space after the hash, as in `# abc`, the value is `abc`. -/
theorem scanComment_without_white_space :
    ((runes "abc").all isCommentRune = true ∧ startsWithoutWhiteSpace (runes "abc") = true ∧
      Scanner.scanComment (NewScanner (runes "#abc")) =
        (({ Kind := COMMENT, Value := runes "bc" }, none), atEnd) ∧
      Scanner.Scan table (NewScanner (runes "#abc")) =
        (({ Kind := COMMENT, Value := runes "bc" }, none), atEnd)) ∧
    Scanner.scanComment (NewScanner (runes "#a")) =
      (({ Kind := COMMENT, Value := [] }, none), atEnd) ∧
    (isCommentRune 10 = false ∧
      Scanner.scanComment (NewScanner (runes "#\nabc")) =
        (({ Kind := COMMENT, Value := runes "abc" }, none), atEnd)) ∧
    Scanner.scanComment (NewScanner (runes "# abc")) =
      (({ Kind := COMMENT, Value := runes "abc" }, none), atEnd) :=
  ⟨⟨by decide, by decide, by decide, rfl⟩, by decide, ⟨by decide, by decide⟩, by decide⟩

/-- The cases of `Scan` on an input that is not empty: a property that holds of
the result of every branch holds of the result of `Scan`. -/
theorem Scan_cases (P : (Token × Option Error) × Scanner → Prop) (r : Nat) (rs : List Nat)
    (l : Option Nat)
    (hill : ∀ (e : Error) (st : Scanner),
      P ((({ Kind := ILLEGAL, Value := [r] } : Token), some e), st))
    (hws : isWhiteSpace r = true → P (afterRead r rs).unread.scanWhiteSpace)
    (hname : P ((afterRead r rs).unread.scanName table))
    (hnum : P ((afterRead r rs).unread.scanNumber table))
    (hblock : ∀ st : Scanner, P st.scanBlockString)
    (hstr : ∀ (e : Error) (st : Scanner), P ((({} : Token), some e), st))
    (hcom : P (afterRead r rs).unread.scanComment)
    (hpun : ∀ (k : TokenKind) (st : Scanner),
      k ∈ [BANG, DOLLAR, AMP, PAREN_L, PAREN_R, SPREAD, COLON, EQUALS, AT, BRACKET_L,
        BRACKET_R, BRACE_L, PIPE, BRACE_R] → P (({ Kind := k }, none), st)) :
    P (Scanner.Scan table ⟨⟨r :: rs, l⟩⟩) := by
  rw [Scan_cons]
  by_cases h0 : (!isSourceCharacter r) = true
  · rw [if_pos h0]; exact hill _ _
  rw [if_neg h0]
  have hr0 : r ≠ eof := by
    rintro rfl
    simp [eof, isSourceCharacter] at h0
  by_cases hc : isWhiteSpace r = true
  · rw [if_pos hc]; exact hws hc
  rw [if_neg hc]; clear hc
  by_cases hc : isFirstNameCharacter r = true
  · rw [if_pos hc]; exact hname
  rw [if_neg hc]; clear hc
  by_cases hc : isFirstNumberCharacter r = true
  · rw [if_pos hc]; exact hnum
  rw [if_neg hc]; clear hc
  by_cases hc : r = 33
  · rw [if_pos hc]; exact hpun _ _ (by simp)
  rw [if_neg hc]; clear hc
  by_cases hc : r = 34
  · rw [if_pos hc]
    subst hc
    by_cases hb : (afterRead 34 rs).isBlockString.1 = true
    · rw [if_pos hb]; exact hblock _
    · rw [if_neg hb]
      have h := scanString_after_isBlockString table rs (by simpa using hb)
      rcases hx : ((afterRead 34 rs).isBlockString.2.unread.scanString table) with ⟨⟨tok, err⟩, st⟩
      rw [hx] at h
      obtain ⟨h1, h2⟩ := h
      simp only at h1 h2
      subst h1
      cases err with
      | none => simp at h2
      | some e => exact hstr e st
  rw [if_neg hc]; clear hc
  by_cases hc : r = 35
  · rw [if_pos hc]; exact hcom
  rw [if_neg hc]; clear hc
  by_cases hc : r = 36
  · rw [if_pos hc]; exact hpun _ _ (by simp)
  rw [if_neg hc]; clear hc
  by_cases hc : r = 38
  · rw [if_pos hc]; exact hpun _ _ (by simp)
  rw [if_neg hc]; clear hc
  by_cases hc : r = 40
  · rw [if_pos hc]; exact hpun _ _ (by simp)
  rw [if_neg hc]; clear hc
  by_cases hc : r = 41
  · rw [if_pos hc]; exact hpun _ _ (by simp)
  rw [if_neg hc]; clear hc
  by_cases hc : r = 46
  · rw [if_pos hc]; exact hpun _ _ (by simp)
  rw [if_neg hc]; clear hc
  by_cases hc : r = 58
  · rw [if_pos hc]; exact hpun _ _ (by simp)
  rw [if_neg hc]; clear hc
  by_cases hc : r = 61
  · rw [if_pos hc]; exact hpun _ _ (by simp)
  rw [if_neg hc]; clear hc
  by_cases hc : r = 64
  · rw [if_pos hc]; exact hpun _ _ (by simp)
  rw [if_neg hc]; clear hc
  by_cases hc : r = 91
  · rw [if_pos hc]; exact hpun _ _ (by simp)
  rw [if_neg hc]; clear hc
  by_cases hc : r = 93
  · rw [if_pos hc]; exact hpun _ _ (by simp)
  rw [if_neg hc]; clear hc
  by_cases hc : r = 123
  · rw [if_pos hc]; exact hpun _ _ (by simp)
  rw [if_neg hc]; clear hc
  by_cases hc : r = 124
  · rw [if_pos hc]; exact hpun _ _ (by simp)
  rw [if_neg hc]; clear hc
  by_cases hc : r = 125
  · rw [if_pos hc]; exact hpun _ _ (by simp)
  rw [if_neg hc]; clear hc
  rw [if_neg hr0]
  exact hill _ _

/-- An error of `scanName` comes with an ILLEGAL token; every token of `scanName`
has the zero position. -/
theorem scanName_error (s : Scanner) :
    ((s.scanName table).1.2 = none ∨ (s.scanName table).1.1.Kind = ILLEGAL) ∧
      ((s.scanName table).1.1.Start = 0 ∧ (s.scanName table).1.1.End = 0 ∧
        (s.scanName table).1.1.Line = 0 ∧
        (s.scanName table).1.1.Column = 0) := by
  simp only [Scanner.scanName]
  split <;> simp [illegalToken]

/-- The token of `scanNumber` after the leading-zero check comes with no error
and with the zero position. -/
theorem scanNumberTail_error (s : Scanner) (buf : List Nat) :
    (s.scanNumberTail buf).1.2 = none ∧
      ((s.scanNumberTail buf).1.1.Start = 0 ∧ (s.scanNumberTail buf).1.1.End = 0 ∧
        (s.scanNumberTail buf).1.1.Line = 0 ∧ (s.scanNumberTail buf).1.1.Column = 0) := by
  simp [Scanner.scanNumberTail]

/-- An error of `scanNumber` comes with the zero token; every token of
`scanNumber` has the zero position. -/
theorem scanNumber_error (s : Scanner) :
    ((s.scanNumber table).1.2 = none ∨ (s.scanNumber table).1.1.Kind = ILLEGAL) ∧
      ((s.scanNumber table).1.1.Start = 0 ∧ (s.scanNumber table).1.1.End = 0 ∧
        (s.scanNumber table).1.1.Line = 0 ∧
        (s.scanNumber table).1.1.Column = 0) := by
  simp only [Scanner.scanNumber]
  split_ifs <;> first
    | (simp; done)
    | exact ⟨Or.inl (scanNumberTail_error _ _).1, (scanNumberTail_error _ _).2⟩

/-- The tokens of `scanWhiteSpace` and of `scanComment` have the zero position. -/
theorem scanComment_position (s : Scanner) :
    (s.scanWhiteSpace.1.1.Start = 0 ∧ s.scanWhiteSpace.1.1.End = 0 ∧
        s.scanWhiteSpace.1.1.Line = 0 ∧ s.scanWhiteSpace.1.1.Column = 0) ∧
      (s.scanComment.1.1.Start = 0 ∧ s.scanComment.1.1.End = 0 ∧
        s.scanComment.1.1.Line = 0 ∧ s.scanComment.1.1.Column = 0) := by
  refine ⟨by simp [Scanner.scanWhiteSpace], ?_⟩
  simp only [Scanner.scanComment]
  generalize (if s.peek.1 = 35 then s.peek.2.read.2 else s.peek.2) = s2
  have hw := (scanWhiteSpace_kind s2).2
  split
  · next h => rw [h] at hw; simp at hw
  · simp

/-- Whatever the input, the token that `Scan` returns has the zero position, and
when `Scan` returns an error the kind of the token is ILLEGAL or BLOCK_STRING. -/
theorem Scan_token (s : Scanner) :
    ((s.Scan table).1.2 = none ∨ (s.Scan table).1.1.Kind = ILLEGAL ∨ (s.Scan table).1.1.Kind =
      BLOCK_STRING) ∧
      ((s.Scan table).1.1.Start = 0 ∧ (s.Scan table).1.1.End = 0 ∧ (s.Scan table).1.1.Line = 0 ∧
        (s.Scan table).1.1.Column = 0) := by
  obtain ⟨⟨inp, l⟩⟩ := s
  cases inp with
  | nil => simp [Scanner.Scan, eof, isSourceCharacter, illegalToken]
  | cons r rs =>
    refine Scan_cases table (fun x => (x.1.2 = none ∨ x.1.1.Kind = ILLEGAL ∨ x.1.1.Kind =
      BLOCK_STRING) ∧
      (x.1.1.Start = 0 ∧ x.1.1.End = 0 ∧ x.1.1.Line = 0 ∧ x.1.1.Column = 0)) r rs l
      ?_ ?_ ?_ ?_ ?_ ?_ ?_ ?_
    · intro e st; simp
    · intro _
      exact ⟨Or.inl (scanWhiteSpace_kind _).2, (scanComment_position _).1⟩
    · have h := scanName_error table (afterRead r rs).unread
      exact ⟨h.1.elim Or.inl (fun h => Or.inr (Or.inl h)), h.2⟩
    · have h := scanNumber_error table (afterRead r rs).unread
      exact ⟨h.1.elim Or.inl (fun h => Or.inr (Or.inl h)), h.2⟩
    · intro st; simp [Scanner.scanBlockString]
    · intro e st; simp
    · exact ⟨Or.inl (scanComment_kind _).2, (scanComment_position _).2⟩
    · intro k st _; simp

/-- C16 (fails in the code): on an input that begins with three double quotes
`Scan` returns the error of `scanBlockString` together with a token of kind
BLOCK_STRING; on every input, when `Scan` returns an error the kind of the token
is ILLEGAL or BLOCK_STRING. -/
theorem Scan_error_kind :
    Scanner.Scan table (NewScanner (runes "\"\"\"abc\"\"\"")) =
        (({ Kind := BLOCK_STRING }, some (.Errorf "scanBlockString: not yet implemented")),
          ⟨⟨runes "\"abc\"\"\"", none⟩⟩) ∧
      ∀ s : Scanner,
        (s.Scan table).1.2 = none ∨ (s.Scan table).1.1.Kind = ILLEGAL ∨ (s.Scan table).1.1.Kind =
          BLOCK_STRING :=
  ⟨rfl, fun s => (Scan_token table s).1⟩

/-- C20 as stated fails: on the input `!` `Scan` returns the BANG token with no
error, and its Line and Column are 0, not 1. -/
theorem Scan_position_counterexample :
    (Scanner.Scan emptyTable (NewScanner (runes "!"))).1.2 = none ∧
      ¬ (1 ≤ (Scanner.Scan emptyTable (NewScanner (runes "!"))).1.1.Line ∧
        1 ≤ (Scanner.Scan emptyTable (NewScanner (runes "!"))).1.1.Column) ∧
      (Scanner.Scan emptyTable (NewScanner (runes "!"))).1.1.Line ≠ 1 := by
  decide

/-- C20, amended: every token that `Scan` returns, with or without an error, has
Line 0 and Column 0, as well as Start 0 and End 0: the scanner records no
position and the fields keep the zero value of Go. -/
theorem Scan_position (s : Scanner) :
    (s.Scan table).1.1.Line = 0 ∧ (s.Scan table).1.1.Column = 0 ∧ (s.Scan table).1.1.Start = 0 ∧
      (s.Scan table).1.1.End = 0 :=
  ⟨(Scan_token table s).2.2.2.1, (Scan_token table s).2.2.2.2, (Scan_token table s).2.1,
    (Scan_token table s).2.2.1⟩

/-- C18: for every parser state, when `Parser.scan` returns a token `t` with no
error and `Parser.unscan` is called, the next `Parser.scan` returns `t` again with
no error and leaves the scanner as it was; the parser is then in the state it had
before `unscan`, so that the `Parser.scan` after that returns what it would have
returned without the `unscan`, the result of `Scan` on the underlying scanner. -/
theorem Parser_unscan (p : Parser) (t : Token) (h : (p.scan table).1 = (t, none)) :
    ((p.scan table).2.unscan.scan table) = ((t, none), (p.scan table).2) ∧
      ((p.scan table).2.unscan.scan table).2.s = (p.scan table).2.s ∧
      (((p.scan table).2.unscan.scan table).2.scan table) = ((p.scan table).2.scan table) ∧
      ((p.scan table).2.scan table).1 = ((p.scan table).2.s.Scan table).1 := by
  have hn : (p.scan table).2.buf.n = 0 ∧ (p.scan table).2.buf.prev = t := by
    unfold Parser.scan at h ⊢
    by_cases hb : p.buf.n ≠ 0
    · simp only [if_pos hb] at h ⊢
      simp only [Prod.mk.injEq, and_true] at h
      exact ⟨trivial, h⟩
    · simp only [if_neg hb] at h ⊢
      have hb0 : p.buf.n = 0 := by simpa using hb
      rcases hs : (p.s.Scan table) with ⟨⟨tok, err⟩, s⟩
      rw [hs] at h
      cases err with
      | some e => simp at h
      | none =>
        simp only [Prod.mk.injEq, and_true] at h
        exact ⟨hb0, h⟩
  obtain ⟨hn0, hprev⟩ := hn
  have h1 : ((p.scan table).2.unscan.scan table) = ((t, none), (p.scan table).2) := by
    generalize (p.scan table).2 = q at hn0 hprev
    obtain ⟨s, ⟨prev, n⟩⟩ := q
    simp only at hn0 hprev
    subst hn0 hprev
    simp [Parser.unscan, Parser.scan]
  refine ⟨h1, by rw [h1], by rw [h1], ?_⟩
  generalize (p.scan table).2 = q at hn0
  unfold Parser.scan
  simp only [hn0, ne_eq, not_true_eq_false, if_false]
  split <;> next heq => rw [heq]

/-- C18, at the parser on the input `a b`. -/
theorem Parser_unscan_witness :
    ((NewParser (runes "a b")).scan emptyTable).1 = ({ Kind := NAME, Value := runes "a" }, none) ∧
      (((NewParser (runes "a b")).scan emptyTable).2.unscan.scan emptyTable) =
        (({ Kind := NAME, Value := runes "a" }, none), ((NewParser (runes "a b")).scan emptyTable).2) :=
  ⟨by decide, (Parser_unscan emptyTable (NewParser (runes "a b")) { Kind := NAME, Value := runes "a" }
    (by decide)).1⟩

/-- When the first rune is no white space, `Scan` returns no WHITE_SPACE token. -/
theorem Scan_not_white_space (r : Nat) (rs : List Nat) (l : Option Nat)
    (hr : isWhiteSpace r = false) :
    (Scanner.Scan table ⟨⟨r :: rs, l⟩⟩).1.1.Kind ≠ WHITE_SPACE := by
  refine Scan_cases table (fun x => x.1.1.Kind ≠ WHITE_SPACE) r rs l ?_ ?_ ?_ ?_ ?_ ?_ ?_ ?_
  · intro e st; simp
  · intro h; rw [hr] at h; simp at h
  · rcases scanName_kind table (afterRead r rs).unread with h | h <;> rw [h] <;> simp
  · rcases scanNumber_kind table (afterRead r rs).unread with h | h | h <;> rw [h] <;> simp
  · intro st; simp [Scanner.scanBlockString]
  · intro e st; simp
  · show (afterRead r rs).unread.scanComment.1.1.Kind ≠ WHITE_SPACE
    rw [(scanComment_kind _).1]; simp
  · intro k st hk
    simp only [List.mem_cons, List.mem_singleton, List.not_mem_nil, or_false] at hk
    rcases hk with rfl | rfl | rfl | rfl | rfl | rfl | rfl | rfl | rfl | rfl | rfl | rfl |
      rfl | rfl <;> simp

/-- Without a NUL rune in the input, the loop of `scanWhiteSpace` stops at the
end of the input or in front of a rune that is no white space. -/
theorem whiteSpaceLoop_stop (rs buf : List Nat) (h0 : 0 ∉ rs) :
    (whiteSpaceLoop rs buf).2.rd.input = [] ∨
      ∃ c cs, (whiteSpaceLoop rs buf).2.rd.input = c :: cs ∧ isWhiteSpace c = false := by
  induction rs generalizing buf with
  | nil => exact Or.inl rfl
  | cons r tl ih =>
    have hr : r ≠ eof := by
      rintro rfl
      exact h0 (by simp [eof])
    have htl : 0 ∉ tl := fun h => h0 (by simp [h])
    simp only [whiteSpaceLoop, hr, if_false]
    by_cases hw : isWhiteSpace r = true
    · simp only [hw, Bool.not_true, Bool.false_eq_true, if_false]
      exact ih _ htl
    · simp only [hw, Bool.not_eq_true, Bool.not_false, if_true]
      exact Or.inr ⟨r, tl, rfl, by simpa using hw⟩

/-- Without a NUL rune in the input, a WHITE_SPACE token of `Scan` is followed by
the end of the input or by a rune that is no white space. -/
theorem Scan_white_space_stop (s : Scanner) (h0 : 0 ∉ s.rd.input)
    (hk : (s.Scan table).1.1.Kind = WHITE_SPACE) :
    (s.Scan table).2.rd.input = [] ∨
      ∃ c cs, (s.Scan table).2.rd.input = c :: cs ∧ isWhiteSpace c = false := by
  obtain ⟨⟨inp, l⟩⟩ := s
  cases inp with
  | nil => simp [Scanner.Scan, eof, isSourceCharacter, illegalToken] at hk
  | cons r rs =>
    by_cases hw : isWhiteSpace r = true
    · have hrs : 0 ∉ rs := fun h => h0 (by simp [h])
      have hscan : Scanner.Scan table ⟨⟨r :: rs, l⟩⟩ =
          (({ Kind := WHITE_SPACE, Value := (whiteSpaceLoop rs [r]).1 }, none),
            (whiteSpaceLoop rs [r]).2) := by
        rw [Scan_cons]
        simp [isWhiteSpace_source r hw, hw, Scanner.scanWhiteSpace]
      rw [hscan]
      exact whiteSpaceLoop_stop rs [r] hrs
    · exact absurd hk (Scan_not_white_space table r rs l (by simpa using hw))

/-- The token of `Parser.scan` on an empty buffer is the token of `Scan`, and so
is its error. -/
theorem Parser_scan_empty (p : Parser) (hn : p.buf.n = 0) :
    (p.scan table).1 = (p.s.Scan table).1 ∧ (p.scan table).2.s = (p.s.Scan table).2 ∧
      (p.scan table).2.buf.n = 0 := by
  unfold Parser.scan
  simp only [hn, ne_eq, not_true_eq_false, if_false]
  split <;> next heq => simp [heq, hn]

/-- On a parser with an empty buffer and an input without a NUL rune, the token
that `scanIgnoreWhitespace` returns with no error is no WHITE_SPACE token. -/
theorem scanIgnoreWhitespace_without_NUL (p : Parser) (hn : p.buf.n = 0)
    (h0 : 0 ∉ p.s.rd.input) (herr : (p.scanIgnoreWhitespace table).1.2 = none) :
    (p.scanIgnoreWhitespace table).1.1.Kind ≠ WHITE_SPACE := by
  obtain ⟨h1, h2, h3⟩ := Parser_scan_empty table p hn
  rcases hps : (p.scan table) with ⟨⟨tok, err⟩, p1⟩
  rw [hps] at h1 h2 h3
  simp only at h1 h2 h3
  unfold Parser.scanIgnoreWhitespace at herr ⊢
  rw [hps] at herr ⊢
  cases err with
  | some e => simp at herr
  | none =>
    simp only at herr ⊢
    by_cases hk : tok.Kind = WHITE_SPACE
    · rw [if_pos hk] at herr ⊢
      obtain ⟨g1, -, -⟩ := Parser_scan_empty table p1 h3
      rw [g1] at herr ⊢
      have hkind : (p.s.Scan table).1.1.Kind = WHITE_SPACE := by rw [← h1]; exact hk
      have hstop := Scan_white_space_stop table p.s h0 hkind
      rw [← h2] at hstop
      rcases hq : p1.s with ⟨⟨inp, l⟩⟩
      rw [hq] at hstop herr
      simp only at hstop
      rcases hstop with rfl | ⟨c, cs, rfl, hc⟩
      · simp [Scanner.Scan, eof, isSourceCharacter] at herr
      · exact Scan_not_white_space table c cs l hc
    · rw [if_neg hk]
      exact hk

/-- C19 (fails in the code): on the input of a space, a NUL rune and a space,
`scanIgnoreWhitespace` returns a WHITE_SPACE token with no error: the loop of
`scanWhiteSpace` takes the NUL rune for the end of the input and reads it away,
so the white space after it is a second WHITE_SPACE token, and only one is
skipped. -/
theorem scanIgnoreWhitespace_NUL :
    ((NewParser [32, 0, 32]).scanIgnoreWhitespace table).1 =
        ({ Kind := WHITE_SPACE, Value := [32] }, none) ∧
      ((NewParser [32, 0, 32]).s.Scan table) =
        (({ Kind := WHITE_SPACE, Value := [32] }, none), afterRead 0 [32]) ∧
      ((afterRead 0 [32]).Scan table) = (({ Kind := WHITE_SPACE, Value := [32] }, none), atEnd) :=
  ⟨rfl, rfl, rfl⟩

/-- `Scan` starts with a read, so the rune that `unread` could put back does not
matter to it. -/
theorem Scan_lastRune (inp : List Nat) (l : Option Nat) :
    Scanner.Scan table ⟨⟨inp, l⟩⟩ = Scanner.Scan table ⟨⟨inp, none⟩⟩ := rfl

/-- C21: for every rune `c` other than the dot and every `rest`, `Scan` on a dot,
`c`, `rest` and on two dots, `c`, `rest` returns a SPREAD token with no error and
has read `c` as well: the input left unread is exactly `rest`, the value of the
token is empty, and the next `Scan` is the `Scan` of `rest`, so that `c` is in no
token. -/
theorem Scan_dot_swallows (c : Nat) (rest : List Nat) (l : Option Nat) (hc : c ≠ 46) :
    (Scanner.Scan table ⟨⟨46 :: c :: rest, l⟩⟩ = (({ Kind := SPREAD }, none), afterRead c rest) ∧
      Scanner.Scan table ⟨⟨46 :: 46 :: c :: rest, l⟩⟩ =
        (({ Kind := SPREAD }, none), afterRead c rest)) ∧
    ((Scanner.Scan table ⟨⟨46 :: c :: rest, l⟩⟩).2.rd.input = rest ∧
      (Scanner.Scan table ⟨⟨46 :: 46 :: c :: rest, l⟩⟩).2.rd.input = rest) ∧
    (((Scanner.Scan table ⟨⟨46 :: c :: rest, l⟩⟩).2.Scan table) =
      Scanner.Scan table ⟨⟨rest, none⟩⟩ ∧
      ((Scanner.Scan table ⟨⟨46 :: 46 :: c :: rest, l⟩⟩).2.Scan table) =
        Scanner.Scan table ⟨⟨rest, none⟩⟩) := by
  have h1 : Scanner.Scan table ⟨⟨46 :: c :: rest, l⟩⟩ =
      (({ Kind := SPREAD }, none), afterRead c rest) := by
    rw [Scan_cons]
    simp [isSourceCharacter, isWhiteSpace, isFirstNameCharacter, isFirstNumberCharacter,
      isLetter, isDigit, hc]
  have h2 : Scanner.Scan table ⟨⟨46 :: 46 :: c :: rest, l⟩⟩ =
      (({ Kind := SPREAD }, none), afterRead c rest) := by
    rw [Scan_cons]
    simp [isSourceCharacter, isWhiteSpace, isFirstNameCharacter, isFirstNumberCharacter,
      isLetter, isDigit]
  refine ⟨⟨h1, h2⟩, ⟨by rw [h1], by rw [h2]⟩, ?_, ?_⟩
  · rw [h1]; exact Scan_lastRune table rest (some c)
  · rw [h2]; exact Scan_lastRune table rest (some c)

/-- C21, at the inputs `.a!` and `..a!`: the `a` is read away and the next token
is the BANG. -/
theorem Scan_dot_swallows_witness :
    (97 : Nat) ≠ 46 ∧
      Scanner.Scan emptyTable (NewScanner (runes ".a!")) =
        (({ Kind := SPREAD }, none), afterRead 97 (runes "!")) ∧
      Scanner.Scan emptyTable (NewScanner (runes "..a!")) =
        (({ Kind := SPREAD }, none), afterRead 97 (runes "!")) ∧
      ((Scanner.Scan emptyTable (NewScanner (runes ".a!"))).2.Scan emptyTable) =
        (({ Kind := BANG }, none), afterRead 33 []) :=
  ⟨by decide, (Scan_dot_swallows emptyTable 97 (runes "!") none (by decide)).1.1,
    (Scan_dot_swallows emptyTable 97 (runes "!") none (by decide)).1.2, by decide⟩

end language
